import Mathlib

/-!
Verification of the IDENTIA backend core: a shallow embedding in Lean 4 of

* the PII anonymizer (`backend/security/anonymizer.py`),
* the procedure-orchestration state machine and its agents
  (`backend/orchestration/workflow.py`, `backend/orchestration/agents.py`),
* the tracking/PIN registry (`backend/services/tracking_service.py`),

together with theorems settling the specification claims about them.

Modelling conventions, used throughout:

* Python strings are modelled as `List Char` (`Text`) where character-level
  surgery matters (the anonymizer), and as `String` elsewhere.
* External effects are parameters: the `re` regex engine, the SHA-256 hex
  digest, Python's process-salted `hash`, random PIN/radicado generation and
  `datetime.now()` are all inputs of the embedded functions, never stubs.
* Python `dict`s are association lists with insertion-order semantics;
  assigning to an existing key updates the value in place.
* Float scores in `[0,1]` are modelled as exact rationals (`mkRat`), which
  preserves every comparison made by the code; the detection confidences
  0.9 / 0.7 are only ever compared with each other, and are scaled to the
  naturals 90 / 70.
-/

set_option maxHeartbeats 1600000

namespace Identia

/-! ## General string / list utilities shared by the embeddings -/

abbrev Text := List Char

/-- Python slicing `t[i:j]` on a character list. -/
def extract (t : Text) (i j : Nat) : Text := (t.drop i).take (j - i)

/-- The pattern `pat` occurs somewhere inside `s` (Python `pat in s`,
`s.find(pat) != -1`). -/
def OccursIn (pat s : Text) : Prop := ∃ i, pat <+: s.drop i

instance (pat s : Text) : Decidable (OccursIn pat s) :=
  decidable_of_iff
    ((List.range (s.length + 1)).any (fun i => pat.isPrefixOf (s.drop i)) = true) (by
    rw [List.any_eq_true]
    constructor
    · rintro ⟨i, _, hp⟩
      exact ⟨i, List.isPrefixOf_iff_prefix.mp hp⟩
    · rintro ⟨i, hp⟩
      by_cases hi : i ≤ s.length
      · exact ⟨i, List.mem_range.mpr (by omega), List.isPrefixOf_iff_prefix.mpr hp⟩
      · have hnil : s.drop i = [] := List.drop_eq_nil_of_le (by omega)
        rw [hnil] at hp
        have hp0 : pat = [] := List.prefix_nil.mp hp
        refine ⟨0, List.mem_range.mpr (by omega), ?_⟩
        exact List.isPrefixOf_iff_prefix.mpr (by simp [hp0]))

/-- Python `s.replace(old, new)`: replace every non-overlapping occurrence of
`old` in `s`, scanning left to right.  (The Python corner case of an empty
`old`, which interleaves `new` between all characters, is never exercised by
the anonymizer — its keys are generated tokens, which are nonempty — and is
modelled as the identity here.) -/
def replaceAll (old new : Text) : Text → Text
  | [] => []
  | c :: cs =>
    if h : old ≠ [] ∧ old <+: (c :: cs) then
      new ++ replaceAll old new ((c :: cs).drop old.length)
    else
      c :: replaceAll old new cs
termination_by s => s.length
decreasing_by
  · have h1 : 0 < old.length := List.length_pos.mpr h.1
    simp only [List.length_drop, List.length_cons]
    omega
  · simp only [List.length_cons]
    omega

/-- Python `dict` assignment `m[k] = v` on an insertion-ordered association
list: an existing key keeps its position and gets the new value, a new key is
appended at the end. -/
def dictInsert {α β : Type} [DecidableEq α] (m : List (α × β)) (k : α) (v : β) :
    List (α × β) :=
  if m.any (fun p => p.1 = k) then
    m.map (fun p => if p.1 = k then (k, v) else p)
  else
    m ++ [(k, v)]

/-- Python `str.split()` with no separator: split on whitespace runs,
discarding empty fragments. -/
def pySplit (s : Text) : List Text :=
  (s.splitOnP Char.isWhitespace).filter (fun w => w ≠ [])

/-- Python `hay.find(needle)`: the least index at which `needle` occurs, if
any (`None` models Python's `-1`). -/
def strFind (needle hay : Text) : Option Nat :=
  (List.range (hay.length + 1)).find? (fun i => needle.isPrefixOf (hay.drop i))

/-- Python's Unicode word-character class `\w`, approximated: ASCII
alphanumerics, the underscore, and every non-ASCII codepoint (which covers the
accented letters appearing in the anonymizer's name dictionary). -/
def pyIsWordChar (c : Char) : Bool := c.isAlphanum || c == '_' || 128 ≤ c.val

/-- Unicode scalar values are bounded, so `Char` embeds into a finite type. -/
def charToFin (c : Char) : Fin 1114112 :=
  ⟨c.val.toNat, by rcases c.valid with h | h <;> omega⟩

instance : Finite Char := by
  apply Finite.of_injective charToFin
  intro a b hab
  have h2 : a.val.toNat = b.val.toNat := by
    simpa [charToFin, Fin.ext_iff] using hab
  exact Char.ext (UInt32.toNat.inj h2)

/-! ## PII anonymizer (`backend/security/anonymizer.py`) -/

/-- Enum `PIIType`. -/
inductive PIIType
  | CEDULA | NAME | EMAIL | PHONE | ADDRESS | DATE_OF_BIRTH | CREDIT_CARD | SSN
deriving DecidableEq, Repr

/-- The `.value` string of each `PIIType` member. -/
def PIIType.value : PIIType → String
  | .CEDULA => "cedula"
  | .NAME => "name"
  | .EMAIL => "email"
  | .PHONE => "phone"
  | .ADDRESS => "address"
  | .DATE_OF_BIRTH => "date_of_birth"
  | .CREDIT_CARD => "credit_card"
  | .SSN => "ssn"

/-- Dataclass `DetectedPII`.  `confidence` is the source's float 0.9 / 0.7
scaled to the natural 90 / 70 (it is only ever compared, never added). -/
structure DetectedPII where
  pii_type : PIIType
  original_value : Text
  start_pos : Nat
  end_pos : Nat
  confidence : Nat
deriving DecidableEq, Repr

/-- Dataclass `AnonymizationResult`.  The two mappings are insertion-ordered
`dict`s, modelled as association lists. -/
structure AnonymizationResult where
  anonymized_text : Text
  detected_entities : List DetectedPII
  mapping : List (Text × Text)
  reverse_mapping : List (Text × Text)
deriving DecidableEq, Repr

/-- The regex pattern table `PIIAnonymizer.PATTERNS`, in declaration order.
The pattern source strings are opaque data handed to the external `re`
engine (braces are written `\x7b`/`\x7d`). -/
def PATTERNS : List (PIIType × List String) :=
  [ (.CEDULA,
      [ "\\b\\d\x7b3\x7d-?\\d\x7b7\x7d-?\\d\x7b1\x7d\\b",
        "\\b\\d\x7b1,2\x7d\\.\\d\x7b3\x7d\\.\\d\x7b3\x7d\\b",
        "\\b\\d\x7b8,11\x7d\\b" ]),
    (.EMAIL,
      [ "\\b[A-Za-z0-9._%+-]+@[A-Za-z0-9.-]+\\.[A-Z|a-z]\x7b2,\x7d\\b" ]),
    (.PHONE,
      [ "\\b\\+?1?[-.\\s]?\\(?[0-9]\x7b3\x7d\\)?[-.\\s]?[0-9]\x7b3\x7d[-.\\s]?[0-9]\x7b4\x7d\\b",
        "\\b\\d\x7b3\x7d[-.\\s]?\\d\x7b3\x7d[-.\\s]?\\d\x7b4\x7d\\b",
        "\\b\\(\\d\x7b3\x7d\\)\\s?\\d\x7b3\x7d[-.\\s]?\\d\x7b4\x7d\\b" ]),
    (.CREDIT_CARD,
      [ "\\b(?:\\d\x7b4\x7d[-\\s]?)\x7b3\x7d\\d\x7b4\x7d\\b" ]),
    (.DATE_OF_BIRTH,
      [ "\\b\\d\x7b1,2\x7d[/-]\\d\x7b1,2\x7d[/-]\\d\x7b2,4\x7d\\b",
        "\\b\\d\x7b4\x7d[/-]\\d\x7b1,2\x7d[/-]\\d\x7b1,2\x7d\\b" ]) ]

/-- The name dictionary `PIIAnonymizer.COMMON_NAMES` (a Python `set`, used
only for membership tests). -/
def COMMON_NAMES : List Text :=
  [ "juan".toList, "maría".toList, "carlos".toList, "ana".toList,
    "josé".toList, "pedro".toList, "luis".toList, "carmen".toList,
    "antonio".toList, "rosa".toList, "miguel".toList, "sofia".toList,
    "diego".toList, "fernandez".toList, "rodriguez".toList,
    "martinez".toList, "garcia".toList, "lopez".toList ]

/-- The environment of one `PIIAnonymizer` instance: its salt together with
the two external collaborators the class calls — `hashlib.sha256(...)
.hexdigest()` (composed with UTF-8 encoding) and `re.finditer` (the spans,
in match order, of a pattern in a text, case-insensitively). -/
structure AnonCfg where
  salt : Text
  sha256hex : Text → Text
  finditer : String → Text → List (Nat × Nat)

/-- Method `_generate_token`, over an arbitrary digest function and salt:
`f"[{pii_type.value.upper()}_{sha256(f'{salt}:{pii_type.value}:{value}')
.hexdigest()[:8]}]"`. -/
def generate_token (sha256hex : Text → Text) (salt : Text) (t : PIIType) (v : Text) : Text :=
  let hashInput := salt ++ (':' :: (PIIType.value t).toList) ++ (':' :: v)
  let hashValue := (sha256hex hashInput).take 8
  '[' :: ((PIIType.value t).toList.map Char.toUpper ++ '_' :: hashValue) ++ [']']

/-- The token of a detection under a given anonymizer instance. -/
def tokenOf (cfg : AnonCfg) (t : PIIType) (v : Text) : Text :=
  generate_token cfg.sha256hex cfg.salt t v

/-- The pattern-based detections of `detect_pii`: every pattern of every
category, in table order, with the span and matched substring reported by the
regex engine and confidence 0.9 (scaled: 90). -/
def patternDetections (cfg : AnonCfg) (text : Text) : List DetectedPII :=
  (PATTERNS.map (fun p =>
    (p.2.map (fun pat =>
      (cfg.finditer pat text).map (fun sp =>
        { pii_type := p.1
          original_value := extract text sp.1 sp.2
          start_pos := sp.1
          end_pos := sp.2
          confidence := 90 }))).flatten)).flatten

/-- The name-dictionary detections of `detect_pii`: lower-case the text,
split on whitespace, strip non-word characters from each word, and for each
word found in `COMMON_NAMES` locate the *first* occurrence of the cleaned
word in the lowered text, with confidence 0.7 (scaled: 70). -/
def nameDetections (text : Text) : List DetectedPII :=
  let lowered := text.map Char.toLower
  (pySplit lowered).filterMap (fun w =>
    let cw := w.filter pyIsWordChar
    if cw ∈ COMMON_NAMES then
      match strFind cw lowered with
      | some pos =>
        some { pii_type := .NAME
               original_value := extract text pos (pos + cw.length)
               start_pos := pos
               end_pos := pos + cw.length
               confidence := 70 }
      | none => none
    else none)

/-- The sort key of `_remove_overlaps`: ascending `start_pos`, ties broken by
descending confidence (Python key `(x.start_pos, -x.confidence)`; `sorted` is
stable, as is `List.mergeSort`). -/
def roLe (a b : DetectedPII) : Bool :=
  a.start_pos < b.start_pos || (a.start_pos == b.start_pos && b.confidence ≤ a.confidence)

/-- One iteration of the `_remove_overlaps` scan: append a detection that
starts at or after the end of the last kept one, otherwise replace the last
kept one exactly when the new confidence is strictly higher. -/
def roStep (acc : List DetectedPII) (e : DetectedPII) : List DetectedPII :=
  match acc.getLast? with
  | none => [e]
  | some last =>
    if last.end_pos ≤ e.start_pos then acc ++ [e]
    else if last.confidence < e.confidence then acc.dropLast ++ [e]
    else acc

/-- Method `_remove_overlaps`. -/
def remove_overlaps (entities : List DetectedPII) : List DetectedPII :=
  match entities.mergeSort roLe with
  | [] => []
  | x :: xs => xs.foldl roStep [x]

/-- Method `detect_pii`: pattern detections, then name detections, then
overlap removal. -/
def detect_pii (cfg : AnonCfg) (text : Text) : List DetectedPII :=
  remove_overlaps (patternDetections cfg text ++ nameDetections text)

/-- The sort key of `anonymize`'s replacement pass: descending `start_pos`
(Python `sort(key=lambda x: x.start_pos, reverse=True)`, stable). -/
def descLe (a b : DetectedPII) : Bool := b.start_pos ≤ a.start_pos

/-- One iteration of `anonymize`'s replacement loop, carrying the partially
substituted text and the two mapping `dict`s. -/
def anonFold (cfg : AnonCfg) (st : Text × List (Text × Text) × List (Text × Text))
    (e : DetectedPII) : Text × List (Text × Text) × List (Text × Text) :=
  let tok := tokenOf cfg e.pii_type e.original_value
  (st.1.take e.start_pos ++ tok ++ st.1.drop e.end_pos,
   dictInsert st.2.1 tok e.original_value,
   dictInsert st.2.2 e.original_value tok)

/-- Method `anonymize` (the optional session-cache write is a store into a
mutable side table and does not affect the returned result). -/
def anonymize (cfg : AnonCfg) (text : Text) : AnonymizationResult :=
  let detected := detect_pii cfg text
  if detected.isEmpty then
    { anonymized_text := text, detected_entities := [],
      mapping := [], reverse_mapping := [] }
  else
    let sortedDesc := detected.mergeSort descLe
    let res := sortedDesc.foldl (anonFold cfg) (text, [], [])
    { anonymized_text := res.1
      detected_entities := sortedDesc.reverse
      mapping := res.2.1
      reverse_mapping := res.2.2 }

/-- Method `deanonymize`: literal token substitution, iterating the mapping
in `dict` insertion order. -/
def deanonymize (text : Text) (mapping : List (Text × Text)) : Text :=
  mapping.foldl (fun acc p => replaceAll p.1 p.2 acc) text

/-- Hexadecimal digit of a lowercase hex digest. -/
def isHexChar (c : Char) : Bool :=
  c ∈ ['0', '1', '2', '3', '4', '5', '6', '7', '8', '9', 'a', 'b', 'c', 'd', 'e', 'f']

/-- A digest function whose outputs are lowercase hex strings — true of
`hashlib.sha256(...).hexdigest()`. -/
def HexDigest (h : Text → Text) : Prop := ∀ s : Text, ∀ c ∈ h s, isHexChar c

/-! ## Orchestration agents (`backend/orchestration/agents.py`) -/

/-- Enum `AgentStatus`. -/
inductive AgentStatus
  | PENDING | PROCESSING | COMPLETED | FAILED | NEEDS_INFO
deriving DecidableEq, Repr

/-- The `.value` string of each `AgentStatus` member (the workflow compares
these strings, not the members themselves). -/
def AgentStatus.value : AgentStatus → String
  | .PENDING => "pending"
  | .PROCESSING => "processing"
  | .COMPLETED => "completed"
  | .FAILED => "failed"
  | .NEEDS_INFO => "needs_info"

/-- A document record as consumed by `ValidatorAgent._is_document_valid`:
an optional `verified` flag and optional extracted `data`. -/
structure Document where
  verified : Bool := false
  data : Option String := none
deriving DecidableEq, Repr

/-- Method `_is_document_valid`: `document.get("verified", False) or
document.get("data") is not None`. -/
def Document.isValid (d : Document) : Bool := d.verified || d.data.isSome

/-- The `documents` dict.  A key bound to `none` models a present-but-falsy
value (`{}` / `None` in Python) — `doc_type in documents` sees the key, while
`documents[doc_type]` is falsy. -/
abbrev Documents := List (String × Option Document)

/-- The schema of `biometric_data` (spec §6): optional float scores and an
optional liveness flag; `.get` defaults are 0 / 0 / False. -/
structure BiometricData where
  face_match_score : Option ℚ := none
  voice_match_score : Option ℚ := none
  liveness_check : Option Bool := none
deriving DecidableEq, Repr

/-- Python truthiness of the `biometric_data` dict: empty means no field set. -/
def BiometricData.isEmpty (b : BiometricData) : Bool :=
  b.face_match_score.isNone && b.voice_match_score.isNone && b.liveness_check.isNone

/-- The `preferences` sub-dict of `citizen_data`. -/
structure Preferences where
  preferred_time : Option String := none
deriving DecidableEq, Repr

/-- The schema of `citizen_data` / validator `form_data`: the five required
form fields, plus the fields read by the legal agent and the scheduler. -/
structure CitizenData where
  nombre : Option String := none
  cedula : Option String := none
  direccion : Option String := none
  telefono : Option String := none
  tipo_tramite : Option String := none
  age : Option Int := none
  is_resident : Option Bool := none
  preferences : Option Preferences := none
deriving DecidableEq, Repr

/-- Python truthiness of `form_data.get(field)`: present and nonempty. -/
def truthyStr : Option String → Bool
  | none => false
  | some s => s ≠ ""

/-- Field access `form_data.get(f)` for the validator's required fields. -/
def CitizenData.getField (c : CitizenData) (f : String) : Option String :=
  if f = "nombre" then c.nombre
  else if f = "cedula" then c.cedula
  else if f = "direccion" then c.direccion
  else if f = "telefono" then c.telefono
  else if f = "tipo_tramite" then c.tipo_tramite
  else none

/-- Result dict of `_validate_documents`. -/
structure DocCheck where
  passed : Bool
  validated : List String
  missing : List String
deriving DecidableEq, Repr

/-- Result dict of `_validate_biometrics`. -/
structure BioCheck where
  passed : Bool
  face_match : ℚ
  voice_match : ℚ
  liveness : Bool
  missing : List String
deriving DecidableEq, Repr

/-- Result dict of `_validate_form`. -/
structure FormCheck where
  passed : Bool
  missing : List String
deriving DecidableEq, Repr

/-- The `eligibility` sub-dict of a regulations entry; only `age_min` and
`residency_required` are ever read by `_check_eligibility`. -/
structure EligRules where
  age_min : Option Int := none
  residency_required : Bool := false
  relationship_required : Bool := false
  vision_test : Bool := false
deriving DecidableEq, Repr

/-- One entry of the legal agent's regulations table.  `cost` carries the
source's float constant pre-rendered with the `{:,.2f}` format in which it is
exclusively used. -/
structure Regulation where
  requirements : List String
  eligibility : EligRules
  processing_time : String
  cost : String
  legal_reference : String
deriving DecidableEq, Repr

/-- Result dict of `_check_eligibility`. -/
structure Eligibility where
  eligible : Bool
  issues : List String
deriving DecidableEq, Repr

/-- The appointment record built by `GestorAgent._schedule_appointment`. -/
structure Appointment where
  office : String
  office_id : String
  date : String
  time : String
  procedure : String
  confirmation_code : String
deriving DecidableEq, Repr

/-- The union of the `data` payload fields the three agents produce;
an agent's result populates the fields its dict literally contains. -/
structure AgentData where
  document_check : Option DocCheck := none
  biometric_check : Option BioCheck := none
  form_check : Option FormCheck := none
  eligibility : Option Eligibility := none
  regulations : Option Regulation := none
  summary : Option String := none
  missing_documents : Option (List String) := none
  available_procedures : Option (List String) := none
  appointment : Option Appointment := none
  instructions : Option String := none
  case_id : Option String := none
  case_status : Option String := none
  case_step : Option Int := none
  case_total_steps : Option Int := none
  last_update : Option String := none
  notification_id : Option String := none
deriving DecidableEq, Repr

/-- Dataclass `AgentResult`. -/
structure AgentResult where
  status : AgentStatus
  message : String
  data : AgentData
  next_action : Option String := none
  confidence : ℚ := 1
deriving DecidableEq, Repr

/-- `ValidatorAgent.required_documents`. -/
def required_documents : List String := ["cedula", "proof_of_address", "photo"]

/-- Method `_validate_documents`: a required document is valid if present,
truthy and passing `_is_document_valid`; otherwise it is reported missing
(annotated when present but invalid). -/
def validate_documents (documents : Documents) : DocCheck :=
  let missing := required_documents.filterMap (fun dt =>
    match documents.lookup dt with
    | some (some d) => if d.isValid then none else some (dt ++ " (documento inválido)")
    | some none => some dt
    | none => some dt)
  let validated := required_documents.filter (fun dt =>
    match documents.lookup dt with
    | some (some d) => d.isValid
    | _ => false)
  { passed := missing.isEmpty, validated := validated, missing := missing }

/-- `FACE_THRESHOLD = 0.85` (exact rational). -/
def FACE_THRESHOLD : ℚ := mkRat 85 100

/-- `VOICE_THRESHOLD = 0.80` (declared but not gating). -/
def VOICE_THRESHOLD : ℚ := mkRat 80 100

/-- Method `_validate_biometrics`: passes iff the face-match score reaches
`FACE_THRESHOLD` and liveness holds; the voice score is recorded only. -/
def validate_biometrics (b : BiometricData) : BioCheck :=
  let face := b.face_match_score.getD 0
  let voice := b.voice_match_score.getD 0
  let liveness := b.liveness_check.getD false
  { passed := decide (FACE_THRESHOLD ≤ face) && liveness
    face_match := face
    voice_match := voice
    liveness := liveness
    missing :=
      (if face < FACE_THRESHOLD then ["verificación facial"] else []) ++
      (if liveness then [] else ["prueba de vida"]) }

/-- The validator's `required_fields`. -/
def required_fields : List String :=
  ["nombre", "cedula", "direccion", "telefono", "tipo_tramite"]

/-- Method `_validate_form`. -/
def validate_form (c : CitizenData) : FormCheck :=
  let missing := required_fields.filter (fun f => !truthyStr (c.getField f))
  { passed := missing.isEmpty, missing := missing }

/-- Method `ValidatorAgent.process`: run the three checks, aggregate
`COMPLETED` (0.95) when all pass, else `NEEDS_INFO` (0.8) listing every
missing item in check order. -/
def validator_process (documents : Documents) (biometric_data : BiometricData)
    (form_data : CitizenData) : AgentResult :=
  let dc := validate_documents documents
  let bc := validate_biometrics biometric_data
  let fc := validate_form form_data
  let all_passed := dc.passed && bc.passed && fc.passed
  let missing_items :=
    (if dc.passed then [] else dc.missing) ++
    (if bc.passed then [] else bc.missing) ++
    (if fc.passed then [] else fc.missing)
  let data : AgentData :=
    { document_check := some dc, biometric_check := some bc, form_check := some fc }
  if all_passed then
    { status := .COMPLETED
      message := "Todos los documentos y datos han sido validados correctamente."
      data := data
      next_action := some "legal_review"
      confidence := mkRat 95 100 }
  else
    { status := .NEEDS_INFO
      message := "Se requiere información adicional: " ++ String.intercalate ", " missing_items
      data := data
      next_action := some "request_documents"
      confidence := mkRat 8 10 }

/-- The static table `LegalAgent._load_regulations`. -/
def regulations_db : List (String × Regulation) :=
  [ ("cedula_renovation",
     { requirements := ["cedula_anterior", "foto_reciente", "comprobante_pago"]
       eligibility := { age_min := some 18, residency_required := true }
       processing_time := "5-10 días hábiles"
       cost := "500.00"
       legal_reference := "Ley 6125 de Cédula de Identidad Personal" }),
    ("acta_nacimiento",
     { requirements := ["cedula_solicitante", "datos_titular"]
       eligibility := { relationship_required := true }
       processing_time := "3-5 días hábiles"
       cost := "200.00"
       legal_reference := "Ley 659 sobre Actos del Estado Civil" }),
    ("licencia_conducir",
     { requirements := ["cedula", "examen_medico", "curso_aprobado", "foto"]
       eligibility := { age_min := some 18, vision_test := true }
       processing_time := "1-3 días hábiles"
       cost := "1,500.00"
       legal_reference := "Ley 63-17 de Movilidad y Seguridad Vial" }) ]

/-- Method `_check_eligibility`: minimum age (default 0) and residency
(default not resident). -/
def check_eligibility (c : CitizenData) (rules : EligRules) : Eligibility :=
  let issues :=
    (match rules.age_min with
     | some m =>
       if c.age.getD 0 < m then ["Edad mínima requerida: " ++ toString m ++ " años"] else []
     | none => []) ++
    (if rules.residency_required then
       (if c.is_resident.getD false then [] else ["Se requiere residencia en el país"])
     else [])
  { eligible := issues.isEmpty, issues := issues }

/-- Python `s.replace('_', ' ')`. -/
def pyReplaceUnderscore (s : String) : String :=
  String.mk (s.toList.map (fun c => if c = '_' then ' ' else c))

/-- Python `str.title()` on the ASCII identifiers it is applied to:
uppercase an alphabetic character after a non-alphabetic one, lowercase the
rest. -/
def pyTitleGo : Bool → Text → Text
  | _, [] => []
  | prevAlpha, c :: cs =>
    (if c.isAlpha then (if prevAlpha then c.toLower else c.toUpper) else c) ::
      pyTitleGo c.isAlpha cs

/-- Python `str.title()`. -/
def pyTitle (s : String) : String := String.mk (pyTitleGo false s.toList)

/-- Method `_generate_legal_summary` (the stripped f-string). -/
def generate_legal_summary (procedure_type : String) (regulations : Regulation) : String :=
  "📋 **Resumen de su trámite: " ++ pyTitle (pyReplaceUnderscore procedure_type) ++ "**\n\n" ++
  "📄 **Documentos necesarios:**\n" ++
  String.intercalate "\n"
    (regulations.requirements.map (fun doc => "   • " ++ pyTitle (pyReplaceUnderscore doc))) ++
  "\n\n⏱️ **Tiempo de procesamiento:** " ++ regulations.processing_time ++
  "\n\n💰 **Costo:** RD$" ++ regulations.cost ++
  "\n\n📚 **Base legal:** " ++ regulations.legal_reference

/-- Method `LegalAgent.process`. -/
def legal_process (procedure_type : String) (citizen_data : CitizenData)
    (documents : Documents) : AgentResult :=
  match regulations_db.lookup procedure_type with
  | none =>
    { status := .FAILED
      message := "No se encontró información legal para el trámite: " ++ procedure_type
      data := { available_procedures := some (regulations_db.map Prod.fst) }
      confidence := 1 }
  | some regulations =>
    let eligibility_result := check_eligibility citizen_data regulations.eligibility
    let missing_docs := regulations.requirements.filter
      (fun doc => !(documents.any (fun p => p.1 = doc)))
    let summary := generate_legal_summary procedure_type regulations
    if eligibility_result.eligible && missing_docs.isEmpty then
      { status := .COMPLETED
        message := "Análisis legal completado. El ciudadano cumple con todos los requisitos."
        data := { eligibility := some eligibility_result, regulations := some regulations,
                  summary := some summary }
        next_action := some "schedule_appointment"
        confidence := mkRat 92 100 }
    else
      let issues :=
        (if eligibility_result.eligible then [] else eligibility_result.issues) ++
        (if missing_docs.isEmpty then []
         else ["Documentos faltantes: " ++ String.intercalate ", " missing_docs])
      { status := .NEEDS_INFO
        message := "Se identificaron los siguientes requisitos pendientes: " ++
          String.intercalate "; " issues
        data := { eligibility := some eligibility_result,
                  missing_documents := some missing_docs, summary := some summary }
        next_action := some "request_info"
        confidence := mkRat 85 100 }

/-- A government office of `GestorAgent._load_offices`. -/
structure Office where
  id : String
  name : String
  services : List String
  available_slots : List String
deriving DecidableEq, Repr

/-- The static office list `GestorAgent._load_offices`. -/
def available_offices : List Office :=
  [ { id := "jce_sd", name := "Junta Central Electoral - Santo Domingo"
      services := ["cedula_renovation", "acta_nacimiento"]
      available_slots := ["09:00", "10:00", "11:00", "14:00", "15:00"] },
    { id := "dgii_sd", name := "DGII - Santo Domingo"
      services := ["rnc", "declaracion_impuestos"]
      available_slots := ["08:00", "09:00", "10:00", "11:00"] },
    { id := "intrant_sd", name := "INTRANT - Santo Domingo"
      services := ["licencia_conducir", "marbete"]
      available_slots := ["08:00", "09:00", "10:00", "14:00", "15:00", "16:00"] } ]

/-- Method `_get_all_services` (a Python `set` union; its iteration order is
unspecified — this data is only returned as recovery payload and never
inspected by the workflow). -/
def get_all_services : List String :=
  ((available_offices.map Office.services).flatten).dedup

/-- Zero-padded `{:04d}` rendering of `n % 10000`. -/
def pad4 (n : Nat) : String :=
  let s := toString n
  String.mk (List.replicate (4 - s.length) '0') ++ s

/-- Method `_get_appointment_instructions` (the stripped f-string). -/
def get_appointment_instructions (a : Appointment) : String :=
  "📅 **Detalles de su cita:**\n\n" ++
  "🏢 **Oficina:** " ++ a.office ++ "\n" ++
  "📆 **Fecha:** " ++ a.date ++ "\n" ++
  "🕐 **Hora:** " ++ a.time ++ "\n" ++
  "🎫 **Código de confirmación:** " ++ a.confirmation_code ++ "\n\n" ++
  "📋 **Recuerde traer:**\n" ++
  "   • Cédula de identidad original\n" ++
  "   • Documentos mencionados en los requisitos\n" ++
  "   • Este código de confirmación\n\n" ++
  "⚠️ **Importante:** Llegue 15 minutos antes de su cita."

/-- Method `_schedule_appointment`.  `pyHash` is Python's process-salted
built-in `hash` on strings, an environment parameter. -/
def gestor_schedule (pyHash : String → Nat) (procedure_type : String)
    (preferences : Preferences) : AgentResult :=
  let suitable_offices := available_offices.filter
    (fun o => procedure_type ∈ o.services)
  match suitable_offices with
  | [] =>
    { status := .FAILED
      message := "No se encontró oficina disponible para el trámite: " ++ procedure_type
      data := { available_procedures := some get_all_services }
      confidence := 1 }
  | selected_office :: _ =>
    let preferred_time :=
      preferences.preferred_time.getD (selected_office.available_slots.headD "")
    let appointment : Appointment :=
      { office := selected_office.name
        office_id := selected_office.id
        date := "próximo día hábil disponible"
        time := if preferred_time ∈ selected_office.available_slots then preferred_time
                else selected_office.available_slots.headD ""
        procedure := procedure_type
        confirmation_code := "IDENTIA-" ++ pad4 (pyHash procedure_type % 10000) }
    { status := .COMPLETED
      message := "Cita programada exitosamente en " ++ selected_office.name
      data := { appointment := some appointment
                instructions := some (get_appointment_instructions appointment) }
      next_action := some "confirm_appointment"
      confidence := mkRat 95 100 }

/-- The request dict handed to `GestorAgent.process`. -/
structure GestorRequest where
  action : String := "schedule"
  procedure_type : String := ""
  preferences : Preferences := {}
  case_id : String := ""
  notification_repr : String := ""
deriving DecidableEq, Repr

/-- Method `GestorAgent.process`: dispatch on `action`.  The `status` and
`notify` branches return the source's simulated fixed-shape results; the
`str(...)` rendering of the notification dict is absorbed into the `pyHash`
environment parameter via `notification_repr`. -/
def gestor_process (pyHash : String → Nat) (req : GestorRequest) : AgentResult :=
  if req.action = "schedule" then
    gestor_schedule pyHash req.procedure_type req.preferences
  else if req.action = "status" then
    { status := .COMPLETED
      message := "Estado del caso " ++ req.case_id ++ ": En procesamiento"
      data := { case_id := some req.case_id, case_status := some "processing",
                case_step := some 2, case_total_steps := some 4,
                last_update := some "hace 2 horas" }
      confidence := mkRat 9 10 }
  else if req.action = "notify" then
    { status := .COMPLETED
      message := "Notificación enviada exitosamente"
      data := { notification_id := some ("NOTIF-" ++ pad4 (pyHash req.notification_repr % 10000)) }
      confidence := 1 }
  else
    { status := .FAILED
      message := "Acción no reconocida: " ++ req.action
      data := {}
      confidence := 1 }

/-! ## Procedure workflow (`backend/orchestration/workflow.py`) -/

/-- Enum `WorkflowStep`. -/
inductive WorkflowStep
  | START | BIOMETRIC_VALIDATION | DOCUMENT_ANALYSIS | LEGAL_REVIEW
  | SCHEDULING | COMPLETE | ERROR
deriving DecidableEq, Repr

/-- The `.value` string of each `WorkflowStep` member. -/
def WorkflowStep.value : WorkflowStep → String
  | .START => "start"
  | .BIOMETRIC_VALIDATION => "biometric_validation"
  | .DOCUMENT_ANALYSIS => "document_analysis"
  | .LEGAL_REVIEW => "legal_review"
  | .SCHEDULING => "scheduling"
  | .COMPLETE => "complete"
  | .ERROR => "error"

/-- Python `str()` of a `WorkflowStep` member, as interpolated into the
"No handler" message. -/
def WorkflowStep.pyStr : WorkflowStep → String
  | .START => "WorkflowStep.START"
  | .BIOMETRIC_VALIDATION => "WorkflowStep.BIOMETRIC_VALIDATION"
  | .DOCUMENT_ANALYSIS => "WorkflowStep.DOCUMENT_ANALYSIS"
  | .LEGAL_REVIEW => "WorkflowStep.LEGAL_REVIEW"
  | .SCHEDULING => "WorkflowStep.SCHEDULING"
  | .COMPLETE => "WorkflowStep.COMPLETE"
  | .ERROR => "WorkflowStep.ERROR"

/-- The loop guard of `run`: `current_step in [COMPLETE, ERROR]`. -/
def WorkflowStep.isTerminal (st : WorkflowStep) : Bool :=
  st == .COMPLETE || st == .ERROR

/-- Dataclass `ProcedureState`. -/
structure ProcedureState where
  procedure_id : String := ""
  procedure_type : String := ""
  created_at : String := ""
  current_step : WorkflowStep := .START
  step_history : List String := []
  citizen_id : String := ""
  citizen_data : CitizenData := {}
  documents : Documents := []
  ocr_results : List (String × String) := []
  biometric_data : BiometricData := {}
  validation_result : Option AgentData := none
  legal_result : Option AgentData := none
  appointment : Option Appointment := none
  error : Option String := none
  retry_count : Nat := 0
  messages : List String := []
deriving DecidableEq, Repr

/-- Method `_handle_start`. -/
def handle_start (s : ProcedureState) : ProcedureState :=
  if s.procedure_type = "" then
    { s with messages := s.messages ++
        ["¡Bienvenido a IDENTIA! 👋\n¿En qué trámite puedo ayudarle hoy?"] }
  else
    { s with
      messages := s.messages ++
        ["Perfecto, vamos a iniciar su trámite de " ++
         pyReplaceUnderscore s.procedure_type ++
         ".\nPrimero necesito verificar su identidad."]
      current_step := .BIOMETRIC_VALIDATION }

/-- Method `_handle_biometric`. -/
def handle_biometric (s : ProcedureState) : ProcedureState :=
  if s.biometric_data.isEmpty then
    { s with messages := s.messages ++
        ["📸 Por favor, mire a la cámara para verificar su identidad.\nEsto solo tomará unos segundos."] }
  else
    let result := validator_process s.documents s.biometric_data s.citizen_data
    let s1 := { s with validation_result := some result.data }
    if result.status.value = "completed" then
      { s1 with
        messages := s1.messages ++
          ["✅ ¡Identidad verificada correctamente!\nAhora revisaremos sus documentos."]
        current_step := .DOCUMENT_ANALYSIS }
    else if result.status.value = "needs_info" then
      { s1 with messages := s1.messages ++
          ["⚠️ " ++ result.message ++ "\nPor favor, intente nuevamente."] }
    else
      { s1 with error := some result.message, current_step := .ERROR }

/-- Method `_handle_documents`. -/
def handle_documents (s : ProcedureState) : ProcedureState :=
  if s.documents.isEmpty then
    { s with messages := s.messages ++
        ["📄 Ahora necesito que tome una foto de su cédula.\nColóquela dentro del marco en la pantalla."] }
  else
    let result := validator_process s.documents s.biometric_data s.citizen_data
    if result.status.value = "completed" then
      { s with
        messages := s.messages ++
          ["✅ Documentos verificados correctamente.\nRevisando requisitos legales..."]
        current_step := .LEGAL_REVIEW }
    else
      let missing := (result.data.document_check.map DocCheck.missing).getD []
      if missing ≠ [] then
        { s with messages := s.messages ++
            ["📋 Necesito los siguientes documentos adicionales:\n" ++
             String.intercalate "\n" (missing.map (fun doc => "  • " ++ doc))] }
      else
        { s with messages := s.messages ++ ["⚠️ " ++ result.message] }

/-- Method `_handle_legal`. -/
def handle_legal (s : ProcedureState) : ProcedureState :=
  let result := legal_process s.procedure_type s.citizen_data s.documents
  let s1 := { s with legal_result := some result.data }
  if result.status.value = "completed" then
    let summary := result.data.summary.getD ""
    { s1 with
      messages := s1.messages ++
        ["✅ Análisis legal completado.\n\n" ++ summary ++ "\n\n¿Desea programar una cita?"]
      current_step := .SCHEDULING }
  else if result.status.value = "needs_info" then
    { s1 with messages := s1.messages ++ ["⚠️ " ++ result.message] }
  else
    { s1 with error := some result.message, current_step := .ERROR }

/-- Method `_handle_scheduling`. -/
def handle_scheduling (pyHash : String → Nat) (s : ProcedureState) : ProcedureState :=
  let result := gestor_process pyHash
    { action := "schedule"
      procedure_type := s.procedure_type
      preferences := s.citizen_data.preferences.getD {} }
  if result.status.value = "completed" then
    let instructions := result.data.instructions.getD ""
    { s with
      appointment := result.data.appointment
      messages := s.messages ++
        ["🎉 ¡Excelente! Su trámite ha sido procesado.\n\n" ++ instructions]
      current_step := .COMPLETE }
  else
    { s with messages := s.messages ++ ["⚠️ " ++ result.message] }

/-- A step handler as `run` sees it: it either returns the updated state or
raises an exception carrying `str(e)`. -/
abbrev Handler := ProcedureState → Except String ProcedureState

/-- The `self.transitions` handler table of `ProcedureWorkflow.__init__`.
The concrete handlers are total in this typed embedding, so they never
throw; `run`'s exception boundary is stated over an arbitrary table. -/
def transitions (pyHash : String → Nat) : WorkflowStep → Option Handler
  | .START => some (fun s => .ok (handle_start s))
  | .BIOMETRIC_VALIDATION => some (fun s => .ok (handle_biometric s))
  | .DOCUMENT_ANALYSIS => some (fun s => .ok (handle_documents s))
  | .LEGAL_REVIEW => some (fun s => .ok (handle_legal s))
  | .SCHEDULING => some (fun s => .ok (handle_scheduling pyHash s))
  | .COMPLETE => none
  | .ERROR => none

/-- The generic apology `run` appends when it catches an exception. -/
def apologyMsg : String :=
  "Lo sentimos, ocurrió un error procesando su solicitud. Por favor intente nuevamente."

/-- The `f"No handler for step: {state.current_step}"` message. -/
def noHandlerMsg (st : WorkflowStep) : String :=
  "No handler for step: " ++ st.pyStr

/-- One iteration of the `while` loop body of `ProcedureWorkflow.run`:
dispatch, append the (new) step name to the history on success, and on an
exception record it in `error`, force `ERROR` and append the apology. -/
def runBody (tr : WorkflowStep → Option Handler) (s : ProcedureState) : ProcedureState :=
  match tr s.current_step with
  | none =>
    { s with error := some (noHandlerMsg s.current_step), current_step := .ERROR }
  | some h =>
    match h s with
    | .ok s2 => { s2 with step_history := s2.step_history ++ [s2.current_step.value] }
    | .error e =>
      { s with error := some e, current_step := .ERROR,
               messages := s.messages ++ [apologyMsg] }

/-- `ProcedureWorkflow.run`, fuelled: iterate the loop body while the state
is non-terminal.  `run` terminates with result `r` exactly when some fuel
reaches a terminal `r` (terminal states are fixed points of `runLoop`). -/
def runLoop (tr : WorkflowStep → Option Handler) : Nat → ProcedureState → ProcedureState
  | 0, s => s
  | n + 1, s =>
    if s.current_step.isTerminal then s else runLoop tr n (runBody tr s)

/-- Method `ProcedureWorkflow.step`: a single dispatch with no exception
boundary (an exception propagates to the caller) and no history append. -/
def stepW (tr : WorkflowStep → Option Handler) (s : ProcedureState) :
    Except String ProcedureState :=
  match tr s.current_step with
  | none =>
    .ok { s with error := some (noHandlerMsg s.current_step), current_step := .ERROR }
  | some h => h s

/-! ## Tracking service (`backend/services/tracking_service.py`) -/

/-- Enum `EstadoTramite`, in declaration order. -/
inductive EstadoTramite
  | INICIADO | IDENTIDAD_OK | DOCS_OK | EN_REVISION
  | CITA_AGENDADA | LISTO | ENTREGADO | RECHAZADO
deriving DecidableEq, Repr

/-- The `.value` string of each `EstadoTramite` member. -/
def EstadoTramite.value : EstadoTramite → String
  | .INICIADO => "iniciado"
  | .IDENTIDAD_OK => "identidad_verificada"
  | .DOCS_OK => "documentos_revisados"
  | .EN_REVISION => "en_revision_legal"
  | .CITA_AGENDADA => "cita_agendada"
  | .LISTO => "listo_para_recoger"
  | .ENTREGADO => "entregado"
  | .RECHAZADO => "rechazado"

/-- Iteration order of the enum (`[e.value for e in EstadoTramite]`). -/
def EstadoTramite.all : List EstadoTramite :=
  [.INICIADO, .IDENTIDAD_OK, .DOCS_OK, .EN_REVISION,
   .CITA_AGENDADA, .LISTO, .ENTREGADO, .RECHAZADO]

/-- `estados_orden` as computed inside `consultar_estado_pin`. -/
def estados_orden : List String := EstadoTramite.all.map EstadoTramite.value

/-- The friendly per-state message table `MENSAJES_ESTADO`. -/
def MENSAJES_ESTADO : List (String × String) :=
  [ ("iniciado", "Tu trámite fue recibido y está en espera de verificación de identidad."),
    ("identidad_verificada", "Tu identidad fue verificada exitosamente. Estamos revisando tus documentos."),
    ("documentos_revisados", "Tus documentos fueron revisados. Tu caso está en revisión legal."),
    ("en_revision_legal", "Tu trámite está en revisión legal. Tiempo estimado: 3-5 días hábiles."),
    ("cita_agendada", "¡Tu cita está agendada! Recuerda llevar los documentos originales."),
    ("listo_para_recoger", "🎉 ¡Tu documento está LISTO para recoger! Visita la oficina con tu cédula."),
    ("entregado", "Tu documento fue entregado exitosamente. ¡Gracias por usar IDENTIA!"),
    ("rechazado", "Tu trámite fue rechazado. Por favor visita la oficina para más información.") ]

/-- One history entry `(estado, timestamp, nota)`. -/
structure HistEntry where
  estado : String
  timestamp : String
  nota : String
deriving DecidableEq, Repr

/-- Appointment data attached by `actualizar_estado` (an opaque dict). -/
abbrev Cita := List (String × String)

/-- One trámite record of `_tramites_db`. -/
structure Tramite where
  pin : String
  radicado : String
  tipo : String
  tipo_legible : String
  ciudadano_nombre : String
  cedula_anonimizada : String
  estado : String
  historial : List HistEntry
  cita : Option Cita := none
  session_id : Option String := none
  creado_en : String
  actualizado_en : String
deriving DecidableEq, Repr

/-- The in-memory registry `_tramites_db` (a `dict` keyed by PIN). -/
abbrev TramitesDB := List (String × Tramite)

/-- Python `.strip()` (ASCII whitespace). -/
def pyStrip (s : String) : String :=
  String.mk (((s.toList.dropWhile Char.isWhitespace).reverse.dropWhile
    Char.isWhitespace).reverse)

/-- Python `.upper()` on the ASCII PINs. -/
def pyUpper (s : String) : String := String.mk (s.toList.map Char.toUpper)

/-- The `pin.upper().strip()` normalisation applied by the lookups. -/
def normPin (pin : String) : String := pyStrip (pyUpper pin)

/-- Helper `_tipo_legible`. -/
def tipo_legible (tipo : String) : String :=
  let mapa : List (String × String) :=
    [ ("cedula_primera_vez", "Cédula de Ciudadanía — Primera Vez"),
      ("cedula_duplicado", "Cédula de Ciudadanía — Duplicado"),
      ("cedula_rectificacion", "Cédula de Ciudadanía — Rectificación"),
      ("cedula_renovacion", "Cédula de Ciudadanía — Renovación"),
      ("tarjeta_identidad", "Tarjeta de Identidad"),
      ("inscripcion_nacimiento", "Registro Civil — Inscripción de Nacimiento"),
      ("copia_nacimiento", "Registro Civil — Copia de Nacimiento"),
      ("copia_matrimonio", "Registro Civil — Copia de Matrimonio"),
      ("copia_defuncion", "Registro Civil — Copia de Defunción"),
      ("apostilla", "Apostilla de Documentos"),
      ("agendar_cita", "Agendamiento de Cita"),
      ("estado_documento", "Consulta de Estado") ]
  (mapa.lookup tipo).getD (pyTitle (pyReplaceUnderscore tipo))

/-- Helper `_anonimizar_cedula`. -/
def anonimizar_cedula (cedula : String) : String :=
  if cedula = "" ∨ cedula.toList.length < 4 then "***"
  else "***" ++ String.mk (cedula.toList.drop (cedula.toList.length - 4))

/-- The `datos_ciudadano` dict as read by `crear_tramite`. -/
structure DatosCiudadano where
  nombre : Option String := none
  cedula : Option String := none
deriving DecidableEq, Repr

/-- The dict returned by `crear_tramite`. -/
structure CrearResult where
  pin : String
  radicado : String
  estado : String
  tipo : String
  mensaje : String
  creado_en : String
deriving DecidableEq, Repr

/-- Function `crear_tramite`.  The random collision-checked PIN, the
UUID-based radicado and `datetime.now()` are environment effects, passed in
as `pin`, `radicado` and `now`. -/
def crear_tramite (db : TramitesDB) (tipo : String) (datos_ciudadano : DatosCiudadano)
    (session_id : Option String) (pin radicado now : String) :
    CrearResult × TramitesDB :=
  let tramite : Tramite :=
    { pin := pin
      radicado := radicado
      tipo := tipo
      tipo_legible := tipo_legible tipo
      ciudadano_nombre := datos_ciudadano.nombre.getD "Ciudadano"
      cedula_anonimizada := anonimizar_cedula (datos_ciudadano.cedula.getD "")
      estado := EstadoTramite.INICIADO.value
      historial := [{ estado := EstadoTramite.INICIADO.value, timestamp := now,
                      nota := "Trámite iniciado desde IDENTIA" }]
      cita := none
      session_id := session_id
      creado_en := now
      actualizado_en := now }
  ({ pin := pin
     radicado := radicado
     estado := tramite.estado
     tipo := tramite.tipo_legible
     mensaje := "✅ Trámite iniciado. Su PIN de seguimiento es: **" ++ pin ++
       "**\n\nGuárdelo para consultar el estado de su trámite en cualquier momento."
     creado_en := tramite.creado_en },
   dictInsert db pin tramite)

/-- Python's `round` (banker's rounding: half to even) on exact rationals. -/
def pyRound (q : ℚ) : Int :=
  let f := ⌊q⌋
  let r := q - f
  if r < 1 / 2 then f
  else if 1 / 2 < r then f + 1
  else if f % 2 = 0 then f else f + 1

/-- Python `historial[-3:]`. -/
def lastThree {α : Type} (l : List α) : List α := l.drop (l.length - 3)

/-- The dict returned by `consultar_estado_pin` (a "not found" result carries
only the guidance message). -/
inductive ConsultaResult
  | notFound (mensaje : String)
  | found (pin radicado tipo estado : String) (porcentaje : Int) (mensaje : String)
      (cita : Option Cita) (historial : List HistEntry) (actualizado_en : String)
deriving DecidableEq, Repr

/-- The `porcentaje` of a found result (`0` for a not-found result, which has
none). -/
def ConsultaResult.porcentaje : ConsultaResult → Int
  | .notFound _ => 0
  | .found _ _ _ _ p _ _ _ _ => p

/-- The `mensaje` of a result. -/
def ConsultaResult.mensaje : ConsultaResult → String
  | .notFound m => m
  | .found _ _ _ _ _ m _ _ _ => m

/-- The `estado` of a found result. -/
def ConsultaResult.estado : ConsultaResult → Option String
  | .notFound _ => none
  | .found _ _ _ e _ _ _ _ _ => some e

/-- Whether the result is `encontrado`. -/
def ConsultaResult.encontrado : ConsultaResult → Bool
  | .notFound _ => false
  | .found _ _ _ _ _ _ _ _ _ => true

/-- The formatted status message of a found trámite, as built by
`consultar_estado_pin`. -/
def consultaMensaje (tipoLegible pin radicado mensajeEstado : String)
    (porcentajeCapped : Int) : String :=
  "📋 **Estado de su trámite de " ++ tipoLegible ++ "**\n\n" ++
  "📌 PIN: `" ++ pin ++ "` | Radicado: `" ++ radicado ++ "`\n\n" ++
  "🔄 **Estado actual:** " ++ mensajeEstado ++ "\n\n" ++
  "📊 **Progreso:** " ++ toString porcentajeCapped ++ "%"

/-- Function `consultar_estado_pin`. -/
def consultar_estado_pin (db : TramitesDB) (pin0 : String) : ConsultaResult :=
  let pin := normPin pin0
  match db.lookup pin with
  | none =>
    .notFound ("No encontré ningún trámite con el PIN **" ++ pin ++
      "**. Por favor verifique que el PIN sea correcto (6 caracteres, ej: A3K7P2). " ++
      "Si necesita ayuda, llame al 01 8000 111 555.")
  | some tramite =>
    let estado := tramite.estado
    let mensaje_estado := (MENSAJES_ESTADO.lookup estado).getD "Estado en proceso."
    let idx_actual : Nat :=
      if estado ∈ estados_orden then estados_orden.indexOf estado else 0
    let porcentaje : Int :=
      pyRound ((idx_actual : ℚ) / ((estados_orden.length : ℚ) - 2) * 100)
    .found pin tramite.radicado tramite.tipo_legible estado (min porcentaje 100)
      (consultaMensaje tramite.tipo_legible pin tramite.radicado mensaje_estado
        (min porcentaje 100))
      tramite.cita (lastThree tramite.historial) tramite.actualizado_en

/-- Function `actualizar_estado`: store the new state string unconditionally,
append a history entry, optionally attach appointment data, and report
whether the PIN existed.  The in-place mutation of the stored record becomes
an updated registry. -/
def actualizar_estado (db : TramitesDB) (pin0 nuevo_estado : String)
    (nota : Option String) (datos_cita : Option Cita) (now : String) :
    Bool × TramitesDB :=
  let pin := normPin pin0
  match db.lookup pin with
  | none => (false, db)
  | some tramite =>
    let tramite2 :=
      { tramite with
        estado := nuevo_estado
        actualizado_en := now
        historial := tramite.historial ++
          [{ estado := nuevo_estado, timestamp := now,
             nota := nota.getD ("Estado actualizado a: " ++ nuevo_estado) }]
        cita := if datos_cita.isSome then datos_cita else tramite.cita }
    (true, dictInsert db pin tramite2)

/-- A one-entry registry used by concrete witnesses. -/
def c10tram : Tramite :=
  { pin := "AAAAAA", radicado := "R", tipo := "t", tipo_legible := "T",
    ciudadano_nombre := "N", cedula_anonimizada := "***", estado := "iniciado",
    historial := [], creado_en := "t0", actualizado_en := "t0" }

/-- The registry holding `c10tram` under PIN `AAAAAA`. -/
def c10db : TramitesDB := [("AAAAAA", c10tram)]

/-- The body of a generated token between its brackets: the upper-cased
category tag, an underscore, and the 8-character digest truncation. -/
def tokenBody (cfg : AnonCfg) (t : PIIType) (v : Text) : Text :=
  (PIIType.value t).toList.map Char.toUpper ++
    '_' :: (cfg.sha256hex (cfg.salt ++ (':' :: (PIIType.value t).toList) ++
      (':' :: v))).take 8

/-- The shorthand used throughout: the token of one detection. -/
def tokOf (cfg : AnonCfg) (d : DetectedPII) : Text :=
  tokenOf cfg d.pii_type d.original_value

/-- Span-decomposed form of the substituted text: the literal gaps of the
original text interleaved with the tokens of the listed detections, which
must sit left-to-right from offset `i`. -/
def render (cfg : AnonCfg) (text : Text) : Nat → List DetectedPII → Text
  | i, [] => text.drop i
  | i, d :: ds =>
    extract text i d.start_pos ++ tokOf cfg d ++ render cfg text d.end_pos ds

/-- The token→original `dict` as accumulated by the replacement loop. -/
def buildMap (cfg : AnonCfg) (l : List DetectedPII) : List (Text × Text) :=
  l.foldl (fun m d => dictInsert m (tokOf cfg d) d.original_value) []

/-- Well-formedness of a detection list against a text: nonempty spans in
range whose recorded value is the spanned substring. -/
def SpansOk (text : Text) (dets : List DetectedPII) : Prop :=
  ∀ d ∈ dets, d.start_pos < d.end_pos ∧ d.end_pos ≤ text.length ∧
    d.original_value = extract text d.start_pos d.end_pos

instance (text : Text) (dets : List DetectedPII) : Decidable (SpansOk text dets) :=
  decidable_of_iff
    (∀ d ∈ dets, d.start_pos < d.end_pos ∧ d.end_pos ≤ text.length ∧
      d.original_value = extract text d.start_pos d.end_pos) Iff.rfl

/-- The text component of one `anonymize` replacement iteration. -/
def spliceText (cfg : AnonCfg) (tx : Text) (d : DetectedPII) : Text :=
  tx.take d.start_pos ++ tokOf cfg d ++ tx.drop d.end_pos

/-- A detection whose token is not among the keys of `mp` (not yet
substituted back by the `deanonymize` loop). -/
def keepB (cfg : AnonCfg) (mp : List (Text × Text)) (d : DetectedPII) : Bool :=
  mp.all (fun q => !(tokOf cfg d == q.1))

/-- A concrete anonymizer instance for evaluation: fixed salt, a constant
hex digest, and a regex engine reporting no matches. -/
def c1cfg : AnonCfg :=
  { salt := "s".toList
    sha256hex := fun _ => "abcd1234".toList
    finditer := fun _ _ => [] }

/-- A concrete input containing one dictionary name. -/
def c1text : Text := "hola juan".toList

/-- The counterexample input: two distinct dictionary names, whose digests
collide after the 8-character truncation under `c1cfg`. -/
def c1mtext : Text := "juan maría".toList

/-- The first name detection of `c1mtext`. -/
def c1d1 : DetectedPII :=
  { pii_type := .NAME, original_value := "juan".toList, start_pos := 0,
    end_pos := 4, confidence := 70 }

/-- The second name detection of `c1mtext`. -/
def c1d2 : DetectedPII :=
  { pii_type := .NAME, original_value := "maría".toList, start_pos := 5,
    end_pos := 10, confidence := 70 }

/-- The single token both detected values of `c1mtext` receive under
`c1cfg`'s digest. -/
def c1tok : Text := "[NAME_abcd1234]".toList

/-! ## Helper lemmas -/

theorem lookup_map_update {α β : Type} [DecidableEq α] [BEq α] [LawfulBEq α]
    (m : List (α × β)) (k : α) (v : β) (hmem : ∃ p ∈ m, p.1 = k) :
    (m.map (fun p => if p.1 = k then (k, v) else p)).lookup k = some v := by
  induction m with
  | nil => simp at hmem
  | cons q m ih =>
    rw [List.map_cons]
    by_cases hq : q.1 = k
    · rw [if_pos hq]
      exact List.lookup_cons_self
    · have hbeq : (k == q.1) = false := by
        simp only [beq_eq_false_iff_ne, ne_eq]
        exact fun h => hq h.symm
      rw [if_neg hq, List.lookup_cons, hbeq]
      apply ih
      obtain ⟨p, hp, hpk⟩ := hmem
      rcases List.mem_cons.mp hp with heq | hp2
      · exact absurd (heq ▸ hpk) hq
      · exact ⟨p, hp2, hpk⟩

theorem lookup_append_single {α β : Type} [BEq α] [LawfulBEq α]
    (m : List (α × β)) (k : α) (v : β) (hmem : ∀ p ∈ m, p.1 ≠ k) :
    (m ++ [(k, v)]).lookup k = some v := by
  induction m with
  | nil => exact List.lookup_cons_self
  | cons q m ih =>
    have hbeq : (k == q.1) = false := by
      simp only [beq_eq_false_iff_ne, ne_eq]
      exact fun h => hmem q (by simp) h.symm
    rw [List.cons_append, List.lookup_cons, hbeq]
    exact ih (fun p hp => hmem p (List.mem_cons_of_mem q hp))

theorem lookup_dictInsert_self {α β : Type} [DecidableEq α] [BEq α] [LawfulBEq α]
    (m : List (α × β)) (k : α) (v : β) : (dictInsert m k v).lookup k = some v := by
  unfold dictInsert
  split
  · next hmem =>
    rw [List.any_eq_true] at hmem
    obtain ⟨p, hp, hpk⟩ := hmem
    exact lookup_map_update m k v ⟨p, hp, by simpa using hpk⟩
  · next hmem =>
    rw [List.any_eq_true] at hmem
    push_neg at hmem
    exact lookup_append_single m k v (fun p hp => by simpa using hmem p hp)

theorem runLoop_fixed (tr : WorkflowStep → Option Handler) (n : Nat)
    (s : ProcedureState) (h : s.current_step.isTerminal = true) :
    runLoop tr n s = s := by
  cases n with
  | zero => rfl
  | succ n => simp [runLoop, h]

theorem validator_status (documents : Documents) (biometric_data : BiometricData)
    (form_data : CitizenData) :
    (validator_process documents biometric_data form_data).status = .COMPLETED ∨
    (validator_process documents biometric_data form_data).status = .NEEDS_INFO := by
  unfold validator_process
  dsimp only
  by_cases h : ((validate_documents documents).passed &&
      (validate_biometrics biometric_data).passed && (validate_form form_data).passed) = true
  · rw [if_pos h]
    exact Or.inl rfl
  · rw [if_neg h]
    exact Or.inr rfl

/-! ## Claim C9 -/

/-- C9: terminal steps are not fixed points of `step` — on a state whose
`current_step` is `COMPLETE` or `ERROR` (no entry in the transitions table),
`ProcedureWorkflow.step` records a "No handler for step" message in `error`
and forces `current_step` to `ERROR`; in particular one extra `step` call on
a completed procedure turns it into an `ERROR` state. -/
theorem c9_step_on_terminal (pyHash : String → Nat) (s : ProcedureState)
    (h : s.current_step = .COMPLETE ∨ s.current_step = .ERROR) :
    stepW (transitions pyHash) s =
      .ok { s with error := some (noHandlerMsg s.current_step),
                   current_step := .ERROR } := by
  have hnone : transitions pyHash s.current_step = none := by
    rcases h with h | h <;> rw [h] <;> rfl
  unfold stepW
  rw [hnone]

/-- Witness for C9 at a concrete completed state. -/
theorem c9_step_on_terminal_witness :
    stepW (transitions (fun _ => 0)) { current_step := .COMPLETE } =
      .ok { current_step := .ERROR,
            error := some "No handler for step: WorkflowStep.COMPLETE" } :=
  c9_step_on_terminal (fun _ => 0) { current_step := .COMPLETE } (Or.inl rfl)

/-! ## Claim C4 -/

/-- C4: the exception boundary of `run`.  For any transitions table and any
state, if the dispatched handler raises (returns an exception text `e`), the
loop body catches it, stores `e` in `error`, forces the terminal `ERROR` step
and appends the generic apology; no exception escapes (`runBody`/`runLoop`
are total functions), and the loop then terminates: every further iteration
leaves the state unchanged. -/
theorem c4_run_exception_boundary (tr : WorkflowStep → Option Handler)
    (s : ProcedureState) (h : Handler) (e : String)
    (hdispatch : tr s.current_step = some h) (hraise : h s = .error e) :
    runBody tr s =
      { s with error := some e, current_step := .ERROR,
               messages := s.messages ++ [apologyMsg] } ∧
    (runBody tr s).current_step = .ERROR ∧
    (∀ n, runLoop tr n (runBody tr s) = runBody tr s) := by
  have hbody : runBody tr s =
      { s with error := some e, current_step := .ERROR,
               messages := s.messages ++ [apologyMsg] } := by
    simp only [runBody, hdispatch, hraise]
  refine ⟨hbody, by rw [hbody], fun n => runLoop_fixed tr n _ (by rw [hbody]; rfl)⟩

/-- Witness for C4: a handler table whose `START` handler always raises. -/
theorem c4_run_exception_boundary_witness :
    runBody (fun _ => some (fun _ => .error "boom")) {} =
      { error := some "boom", current_step := .ERROR, messages := [apologyMsg] } ∧
    (runBody (fun _ => some (fun _ => .error "boom")) {}).current_step = .ERROR ∧
    (∀ n, runLoop (fun _ => some (fun _ => .error "boom")) n
        (runBody (fun _ => some (fun _ => .error "boom")) {}) =
      runBody (fun _ => some (fun _ => .error "boom")) {}) :=
  c4_run_exception_boundary (fun _ => some (fun _ => .error "boom")) {}
    (fun _ => .error "boom") "boom" rfl rfl

/-! ## Claim C5 -/

/-- C5: the biometric check passes iff the face-match score is at least 0.85
and liveness holds; the voice-match score is recorded in the result but has no
effect on any other component; and the `missing` list carries
"verificación facial" exactly when the face match is below threshold and
"prueba de vida" exactly when liveness fails. -/
theorem c5_biometric_gate (b : BiometricData) :
    ((validate_biometrics b).passed = true ↔
      mkRat 85 100 ≤ b.face_match_score.getD 0 ∧ b.liveness_check.getD false = true) ∧
    (validate_biometrics b).voice_match = b.voice_match_score.getD 0 ∧
    (∀ q : Option ℚ, validate_biometrics { b with voice_match_score := q } =
      { validate_biometrics b with voice_match := q.getD 0 }) ∧
    (validate_biometrics b).missing =
      (if b.face_match_score.getD 0 < mkRat 85 100 then ["verificación facial"] else []) ++
      (if b.liveness_check.getD false then [] else ["prueba de vida"]) := by
  refine ⟨?_, rfl, fun q => rfl, rfl⟩
  simp [validate_biometrics, FACE_THRESHOLD, Bool.and_eq_true, decide_eq_true_eq]

/-! ## Claim C10 -/

theorem mensajes_lookup_eq_none (e : String) (he : e ∉ estados_orden) :
    MENSAJES_ESTADO.lookup e = none := by
  simp only [estados_orden, EstadoTramite.all, EstadoTramite.value, List.map_cons,
    List.map_nil, List.mem_cons, List.not_mem_nil, or_false, not_or] at he
  obtain ⟨h1, h2, h3, h4, h5, h6, h7, h8⟩ := he
  simp [MENSAJES_ESTADO, List.lookup_cons,
    beq_eq_false_iff_ne.mpr h1, beq_eq_false_iff_ne.mpr h2,
    beq_eq_false_iff_ne.mpr h3, beq_eq_false_iff_ne.mpr h4,
    beq_eq_false_iff_ne.mpr h5, beq_eq_false_iff_ne.mpr h6,
    beq_eq_false_iff_ne.mpr h7, beq_eq_false_iff_ne.mpr h8]

theorem pyRound_zero : pyRound 0 = 0 := by
  unfold pyRound
  norm_num

theorem pyRound_250_3 : pyRound ((250 : ℚ) / 3) = 83 := by
  have hf : ⌊(250 : ℚ) / 3⌋ = 83 := by
    rw [Int.floor_eq_iff]
    norm_num
  unfold pyRound
  rw [hf]
  norm_num

theorem pyRound_fiveSixth : pyRound ((5 : ℚ) / 6 * 100) = 83 := by
  have hq : (5 : ℚ) / 6 * 100 = 250 / 3 := by norm_num
  have hf : ⌊(250 : ℚ) / 3⌋ = 83 := by
    rw [Int.floor_eq_iff]
    norm_num
  unfold pyRound
  rw [hq, hf]
  norm_num

/-- C10: `actualizar_estado` validates nothing — for every existing PIN and
every string `nuevo_estado`, including ones that are no `EstadoTramite`
value, it stores the string, appends a history entry and returns `True`; a
subsequent `consultar_estado_pin` on the updated trámite does not fail but
reports `porcentaje = 0` and the fallback "Estado en proceso." message. -/
theorem c10_actualizar_no_validation (db : TramitesDB) (pin nuevo : String)
    (nota : Option String) (cita : Option Cita) (now : String) (tram : Tramite)
    (hlook : db.lookup (normPin pin) = some tram)
    (hne : nuevo ∉ estados_orden) :
    actualizar_estado db pin nuevo nota cita now =
      (true, dictInsert db (normPin pin)
        { tram with
          estado := nuevo
          actualizado_en := now
          historial := tram.historial ++
            [{ estado := nuevo, timestamp := now,
               nota := nota.getD ("Estado actualizado a: " ++ nuevo) }]
          cita := if cita.isSome then cita else tram.cita }) ∧
    consultar_estado_pin (actualizar_estado db pin nuevo nota cita now).2 pin =
      .found (normPin pin) tram.radicado tram.tipo_legible nuevo 0
        (consultaMensaje tram.tipo_legible (normPin pin) tram.radicado
          "Estado en proceso." 0)
        (if cita.isSome then cita else tram.cita)
        (lastThree (tram.historial ++
          [{ estado := nuevo, timestamp := now,
             nota := nota.getD ("Estado actualizado a: " ++ nuevo) }]))
        now := by
  have hupd : actualizar_estado db pin nuevo nota cita now =
      (true, dictInsert db (normPin pin)
        { tram with
          estado := nuevo
          actualizado_en := now
          historial := tram.historial ++
            [{ estado := nuevo, timestamp := now,
               nota := nota.getD ("Estado actualizado a: " ++ nuevo) }]
          cita := if cita.isSome then cita else tram.cita }) := by
    simp only [actualizar_estado, hlook]
  refine ⟨hupd, ?_⟩
  rw [hupd]
  have hmen : MENSAJES_ESTADO.lookup nuevo = none := mensajes_lookup_eq_none nuevo hne
  have hidx : (if nuevo ∈ estados_orden then estados_orden.indexOf nuevo else 0) = 0 :=
    if_neg hne
  simp only [consultar_estado_pin, lookup_dictInsert_self, hmen, hidx, Option.getD_none]
  norm_num [pyRound_zero]

/-- Witness for C10 at a concrete registry, PIN and non-enum state string. -/
theorem c10_actualizar_no_validation_witness :
    ((c10db.lookup (normPin "AAAAAA") = some c10tram) ∧
    ("estado_raro" ∉ estados_orden)) ∧
    consultar_estado_pin
      (actualizar_estado c10db "AAAAAA" "estado_raro" none none "t1").2 "AAAAAA" =
      .found "AAAAAA" "R" "T" "estado_raro" 0
        (consultaMensaje "T" "AAAAAA" "R" "Estado en proceso." 0)
        none
        [{ estado := "estado_raro", timestamp := "t1",
           nota := "Estado actualizado a: estado_raro" }]
        "t1" := by
  refine ⟨⟨by decide, by decide⟩, ?_⟩
  have h := (c10_actualizar_no_validation c10db "AAAAAA" "estado_raro" none none "t1"
    c10tram (by decide) (by decide)).2
  simpa [c10db, c10tram, lastThree] using h

/-! ## Claim C6 -/

theorem estados_orden_val :
    estados_orden = ["iniciado", "identidad_verificada", "documentos_revisados",
      "en_revision_legal", "cita_agendada", "listo_para_recoger", "entregado",
      "rechazado"] := rfl

/-- C6 counterexample: on a freshly created trámite updated to
`listo_para_recoger`, `consultar_estado_pin` reports 83%, not the claimed
100% (the state sits at index 5 of 8 and the denominator is 8 − 2 = 6). -/
theorem c6_counterexample :
    (consultar_estado_pin
      (actualizar_estado (crear_tramite [] "cedula_renovacion" {} none
          "AAAAAA" "RAD" "t0").2
        "AAAAAA" "listo_para_recoger" none none "t1").2 "AAAAAA").estado =
      some "listo_para_recoger" ∧
    (consultar_estado_pin
      (actualizar_estado (crear_tramite [] "cedula_renovacion" {} none
          "AAAAAA" "RAD" "t0").2
        "AAAAAA" "listo_para_recoger" none none "t1").2 "AAAAAA").porcentaje = 83 ∧
    (83 : Int) ≠ 100 := by
  have hlook : ((actualizar_estado (crear_tramite [] "cedula_renovacion" {} none
      "AAAAAA" "RAD" "t0").2 "AAAAAA" "listo_para_recoger" none none "t1").2).lookup
      (normPin "AAAAAA") = some
      { pin := "AAAAAA", radicado := "RAD", tipo := "cedula_renovacion"
        tipo_legible := "Cédula de Ciudadanía — Renovación"
        ciudadano_nombre := "Ciudadano", cedula_anonimizada := "***"
        estado := "listo_para_recoger"
        historial := [{ estado := "iniciado", timestamp := "t0",
                        nota := "Trámite iniciado desde IDENTIA" },
          { estado := "listo_para_recoger", timestamp := "t1",
            nota := "Estado actualizado a: listo_para_recoger" }]
        cita := none, session_id := none, creado_en := "t0",
        actualizado_en := "t1" } := by decide
  refine ⟨?_, ?_, by decide⟩
  · simp only [consultar_estado_pin, hlook]
    rfl
  · simp only [consultar_estado_pin, hlook]
    have hidx : (if "listo_para_recoger" ∈ estados_orden then
        estados_orden.indexOf "listo_para_recoger" else 0) = 5 := by decide
    simp only [hidx]
    simp only [estados_orden_val, List.length_cons, List.length_nil]
    norm_num [ConsultaResult.porcentaje, pyRound_fiveSixth, pyRound_250_3]

/-- C6 amended: a fresh trámite in `INICIADO` reports 0% progress; after
`actualizar_estado` to `LISTO` (`listo_para_recoger`) the reported percentage
is 83 — `round(5 / (8 − 2) * 100)` — not 100; the cap at 100 only binds for
`ENTREGADO` (100) and `RECHAZADO` (117 → 100). -/
theorem c6_progress_fresh_and_listo (db : TramitesDB) (tipo : String)
    (datos : DatosCiudadano) (sid : Option String) (pin rad now : String)
    (nota : Option String) (now2 : String) (hpin : normPin pin = pin) :
    (consultar_estado_pin (crear_tramite db tipo datos sid pin rad now).2
      pin).porcentaje = 0 ∧
    (consultar_estado_pin
      (actualizar_estado (crear_tramite db tipo datos sid pin rad now).2 pin
        "listo_para_recoger" nota none now2).2 pin).porcentaje = 83 := by
  have hlook1 : ((crear_tramite db tipo datos sid pin rad now).2).lookup
      (normPin pin) = some
      { pin := pin, radicado := rad, tipo := tipo, tipo_legible := tipo_legible tipo
        ciudadano_nombre := datos.nombre.getD "Ciudadano"
        cedula_anonimizada := anonimizar_cedula (datos.cedula.getD "")
        estado := "iniciado"
        historial := [{ estado := "iniciado", timestamp := now,
                        nota := "Trámite iniciado desde IDENTIA" }]
        cita := none, session_id := sid, creado_en := now, actualizado_en := now } := by
    rw [hpin]
    exact lookup_dictInsert_self db pin _
  constructor
  · simp only [consultar_estado_pin, hlook1]
    have hidx : (if "iniciado" ∈ estados_orden then
        estados_orden.indexOf "iniciado" else 0) = 0 := by decide
    simp only [hidx]
    norm_num [ConsultaResult.porcentaje, pyRound_zero]
  · have hupd : actualizar_estado (crear_tramite db tipo datos sid pin rad now).2 pin
        "listo_para_recoger" nota none now2 =
        (true, dictInsert (crear_tramite db tipo datos sid pin rad now).2 (normPin pin)
          { pin := pin, radicado := rad, tipo := tipo, tipo_legible := tipo_legible tipo
            ciudadano_nombre := datos.nombre.getD "Ciudadano"
            cedula_anonimizada := anonimizar_cedula (datos.cedula.getD "")
            estado := "listo_para_recoger"
            historial := [{ estado := "iniciado", timestamp := now,
                            nota := "Trámite iniciado desde IDENTIA" },
              { estado := "listo_para_recoger", timestamp := now2,
                nota := nota.getD "Estado actualizado a: listo_para_recoger" }]
            cita := none, session_id := sid, creado_en := now,
            actualizado_en := now2 }) := by
      simp only [actualizar_estado, hlook1]
      rfl
    rw [hupd]
    simp only [consultar_estado_pin, lookup_dictInsert_self]
    have hidx : (if "listo_para_recoger" ∈ estados_orden then
        estados_orden.indexOf "listo_para_recoger" else 0) = 5 := by decide
    simp only [hidx]
    simp only [estados_orden_val, List.length_cons, List.length_nil]
    norm_num [ConsultaResult.porcentaje, pyRound_fiveSixth, pyRound_250_3]

/-- Witness for C6 (amended) at a concrete normalised PIN. -/
theorem c6_progress_fresh_and_listo_witness :
    normPin "AAAAAA" = "AAAAAA" ∧
    ((consultar_estado_pin (crear_tramite [] "cedula_renovacion" {} none
        "AAAAAA" "RAD" "t0").2 "AAAAAA").porcentaje = 0 ∧
    (consultar_estado_pin
      (actualizar_estado (crear_tramite [] "cedula_renovacion" {} none
          "AAAAAA" "RAD" "t0").2 "AAAAAA"
        "listo_para_recoger" none none "t1").2 "AAAAAA").porcentaje = 83) :=
  ⟨by decide, c6_progress_fresh_and_listo [] "cedula_renovacion" {} none
    "AAAAAA" "RAD" "t0" none "t1" (by decide)⟩

/-! ## Claim C8 -/

theorem legal_status_of_found (procedure_type : String) (c : CitizenData)
    (d : Documents) (regs : Regulation)
    (hlook : regulations_db.lookup procedure_type = some regs) :
    (legal_process procedure_type c d).status = .COMPLETED ∨
    (legal_process procedure_type c d).status = .NEEDS_INFO := by
  unfold legal_process
  rw [hlook]
  dsimp only
  by_cases h : ((check_eligibility c regs.eligibility).eligible &&
      (regs.requirements.filter (fun doc => !(d.any (fun p => p.1 = doc)))).isEmpty) = true
  · rw [if_pos h]
    exact Or.inl rfl
  · rw [if_neg h]
    exact Or.inr rfl

/-- C8 counterexample: on a state in `LEGAL_REVIEW` whose procedure type is
unknown to the regulations table, the step handler `_handle_legal` appends
no message at all (it transitions to `ERROR` silently), refuting "every step
handler appends at least one message per invocation". -/
theorem c8_counterexample :
    (handle_legal { procedure_type := "foo", current_step := .LEGAL_REVIEW,
                    messages := ["x"] }).messages = ["x"] ∧
    (handle_legal { procedure_type := "foo", current_step := .LEGAL_REVIEW,
                    messages := ["x"] }).current_step = .ERROR := by
  constructor <;> rfl

/-- C8 amended: every step handler treats `messages` as append-only, and
every handler appends at least one message per invocation *except*
`_handle_legal` in the case where the legal agent fails (unknown procedure
type), which appends nothing and transitions to `ERROR`. -/
theorem c8_handlers_append_messages (s : ProcedureState) (pyHash : String → Nat) :
    (∃ m, (handle_start s).messages = s.messages ++ [m]) ∧
    (∃ m, (handle_biometric s).messages = s.messages ++ [m]) ∧
    (∃ m, (handle_documents s).messages = s.messages ++ [m]) ∧
    (∃ m, (handle_scheduling pyHash s).messages = s.messages ++ [m]) ∧
    ((∃ m, (handle_legal s).messages = s.messages ++ [m]) ∨
      ((handle_legal s).messages = s.messages ∧
       (handle_legal s).current_step = .ERROR ∧
       regulations_db.lookup s.procedure_type = none)) := by
  refine ⟨?_, ?_, ?_, ?_, ?_⟩
  · by_cases h : s.procedure_type = ""
    · exact ⟨_, by simp [handle_start, h]; rfl⟩
    · exact ⟨_, by simp [handle_start, h]; rfl⟩
  · by_cases hbe : s.biometric_data.isEmpty
    · exact ⟨_, by simp [handle_biometric, hbe]; rfl⟩
    · rcases validator_status s.documents s.biometric_data s.citizen_data with h | h
      · exact ⟨_, by simp [handle_biometric, hbe, h, AgentStatus.value]; rfl⟩
      · exact ⟨_, by simp [handle_biometric, hbe, h, AgentStatus.value]; rfl⟩
  · by_cases hde : s.documents.isEmpty
    · exact ⟨_, by simp [handle_documents, hde]; rfl⟩
    · rcases validator_status s.documents s.biometric_data s.citizen_data with h | h
      · exact ⟨_, by simp [handle_documents, hde, h, AgentStatus.value]; rfl⟩
      · by_cases hm : (((validator_process s.documents s.biometric_data
            s.citizen_data).data.document_check.map DocCheck.missing).getD []) = []
        · exact ⟨_, by simp [handle_documents, hde, h, hm, AgentStatus.value]; rfl⟩
        · exact ⟨_, by simp [handle_documents, hde, h, hm, AgentStatus.value]; rfl⟩
  · by_cases h : (gestor_process pyHash
        { action := "schedule", procedure_type := s.procedure_type,
          preferences := s.citizen_data.preferences.getD {} }).status.value = "completed"
    · exact ⟨_, by simp [handle_scheduling, h]; rfl⟩
    · exact ⟨_, by simp [handle_scheduling, h]; rfl⟩
  · by_cases hlook : regulations_db.lookup s.procedure_type = none
    · right
      refine ⟨?_, ?_, hlook⟩ <;>
        · unfold handle_legal legal_process
          rw [hlook]
          rfl
    · left
      obtain ⟨regs, hregs⟩ := Option.ne_none_iff_exists'.mp hlook
      rcases legal_status_of_found s.procedure_type s.citizen_data s.documents regs hregs
        with h | h
      · exact ⟨_, by simp [handle_legal, h, AgentStatus.value]; rfl⟩
      · exact ⟨_, by simp [handle_legal, h, AgentStatus.value]; rfl⟩

/-! ## Claim C2 -/

theorem roLe_iff (a b : DetectedPII) :
    roLe a b = true ↔
      (a.start_pos < b.start_pos ∨
        (a.start_pos = b.start_pos ∧ b.confidence ≤ a.confidence)) := by
  simp [roLe, Bool.or_eq_true, Bool.and_eq_true, decide_eq_true_eq, beq_iff_eq]

theorem roLe_trans (a b c : DetectedPII) (h1 : roLe a b = true)
    (h2 : roLe b c = true) : roLe a c = true := by
  rw [roLe_iff] at h1 h2 ⊢
  omega

theorem roLe_total (a b : DetectedPII) : (roLe a b || roLe b a) = true := by
  rw [Bool.or_eq_true, roLe_iff, roLe_iff]
  omega

theorem roStep_concat (acc : List DetectedPII) (la e : DetectedPII) :
    roStep (acc ++ [la]) e =
      if la.end_pos ≤ e.start_pos then (acc ++ [la]) ++ [e]
      else if la.confidence < e.confidence then acc ++ [e]
      else acc ++ [la] := by
  simp [roStep, List.getLast?_concat, List.dropLast_concat]

theorem roFold_inv (l : List DetectedPII) :
    ∀ acc : List DetectedPII, acc ≠ [] →
    List.Chain' (fun a b => a.end_pos ≤ b.start_pos) acc →
    (∀ e ∈ l, ∀ la ∈ acc.getLast?, la.start_pos ≤ e.start_pos) →
    l.Pairwise (fun a b => a.start_pos ≤ b.start_pos) →
    (List.Chain' (fun a b => a.end_pos ≤ b.start_pos) (l.foldl roStep acc) ∧
     ∀ d ∈ l.foldl roStep acc, d ∈ acc ∨ d ∈ l) := by
  induction l with
  | nil =>
    intro acc _ hchain _ _
    exact ⟨hchain, fun d hd => Or.inl hd⟩
  | cons e l ih =>
    intro acc hne hchain hlast hsorted
    rcases (List.eq_nil_or_concat acc) with rfl | ⟨as, la, rfl⟩
    · exact absurd rfl hne
    simp only [List.concat_eq_append] at hne hchain hlast ⊢
    have hgl : (as ++ [la]).getLast? = some la := List.getLast?_concat as
    have hla : la.start_pos ≤ e.start_pos := hlast e (by simp) la (by rw [hgl]; rfl)
    have hsorted' : l.Pairwise (fun a b => a.start_pos ≤ b.start_pos) :=
      hsorted.sublist (List.sublist_cons_self e l)
    have hhead : ∀ f ∈ l, e.start_pos ≤ f.start_pos :=
      fun f hf => (List.pairwise_cons.mp hsorted).1 f hf
    have hsplit := List.chain'_append.mp hchain
    rw [List.foldl_cons, roStep_concat]
    by_cases h1 : la.end_pos ≤ e.start_pos
    · rw [if_pos h1]
      have hchain2 : List.Chain' (fun a b => a.end_pos ≤ b.start_pos)
          ((as ++ [la]) ++ [e]) := by
        rw [List.chain'_append]
        refine ⟨hchain, List.chain'_singleton e, ?_⟩
        intro x hx y hy
        rw [hgl] at hx
        cases hx
        simp only [List.head?_cons, Option.mem_def, Option.some.injEq] at hy
        rw [← hy]
        exact h1
      obtain ⟨g1, g2⟩ := ih ((as ++ [la]) ++ [e]) (by simp) hchain2
        (by
          intro f hf la2 hla2
          rw [List.getLast?_concat] at hla2
          cases hla2
          exact hhead f hf)
        hsorted'
      refine ⟨g1, fun d hd => ?_⟩
      rcases g2 d hd with hd2 | hd2
      · rcases List.mem_append.mp hd2 with hd3 | hd3
        · exact Or.inl hd3
        · simp only [List.mem_singleton] at hd3
          exact Or.inr (by simp [hd3])
      · exact Or.inr (by simp [hd2])
    · rw [if_neg h1]
      by_cases h2 : la.confidence < e.confidence
      · rw [if_pos h2]
        have hchain2 : List.Chain' (fun a b => a.end_pos ≤ b.start_pos)
            (as ++ [e]) := by
          rw [List.chain'_append]
          refine ⟨hsplit.1, List.chain'_singleton e, ?_⟩
          intro x hx y hy
          simp only [List.head?_cons, Option.mem_def, Option.some.injEq] at hy
          rw [← hy]
          have hxla : x.end_pos ≤ la.start_pos :=
            hsplit.2.2 x hx la (by simp)
          omega
        obtain ⟨g1, g2⟩ := ih (as ++ [e]) (by simp) hchain2
          (by
            intro f hf la2 hla2
            rw [List.getLast?_concat] at hla2
            cases hla2
            exact hhead f hf)
          hsorted'
        refine ⟨g1, fun d hd => ?_⟩
        rcases g2 d hd with hd2 | hd2
        · rcases List.mem_append.mp hd2 with hd3 | hd3
          · exact Or.inl (by simp [hd3])
          · simp only [List.mem_singleton] at hd3
            exact Or.inr (by simp [hd3])
        · exact Or.inr (by simp [hd2])
      · rw [if_neg h2]
        obtain ⟨g1, g2⟩ := ih (as ++ [la]) hne hchain
          (by
            intro f hf la2 hla2
            rw [hgl] at hla2
            cases hla2
            exact le_trans hla (hhead f hf))
          hsorted'
        refine ⟨g1, fun d hd => ?_⟩
        rcases g2 d hd with hd2 | hd2
        · exact Or.inl hd2
        · exact Or.inr (by simp [hd2])

theorem remove_overlaps_chain (entities : List DetectedPII) :
    List.Chain' (fun a b => a.end_pos ≤ b.start_pos) (remove_overlaps entities) ∧
    ∀ d ∈ remove_overlaps entities, d ∈ entities := by
  unfold remove_overlaps
  have hperm := List.mergeSort_perm entities roLe
  have hsorted := List.sorted_mergeSort roLe_trans roLe_total entities
  rcases hm : entities.mergeSort roLe with _ | ⟨x, xs⟩
  · exact ⟨List.chain'_nil, by simp⟩
  · rw [hm] at hperm hsorted
    have hpair : (x :: xs).Pairwise (fun a b => a.start_pos ≤ b.start_pos) := by
      refine hsorted.imp ?_
      intro a b hab
      rw [roLe_iff] at hab
      omega
    obtain ⟨g1, g2⟩ := roFold_inv xs [x] (by simp) (List.chain'_singleton x)
      (by
        intro f hf la hla
        simp only [List.getLast?_singleton, Option.mem_def, Option.some.injEq] at hla
        cases hla
        exact (List.pairwise_cons.mp hpair).1 f hf)
      (List.pairwise_cons.mp hpair).2
    refine ⟨g1, fun d hd => ?_⟩
    have hmem : d ∈ x :: xs := by
      rcases g2 d hd with hd2 | hd2
      · simp only [List.mem_singleton] at hd2
        simp [hd2]
      · simp [hd2]
    exact hperm.mem_iff.mp hmem

/-- C3: the overlap resolver returns detections with non-overlapping,
increasing spans — each kept detection starts at or after the end of the
previous kept one; every returned detection is one of the candidates; this
holds in particular for the list `detect_pii` produces; and the scan step on
a non-empty accumulator appends a non-overlapping candidate, replaces the
last kept detection exactly when the overlapping candidate's confidence is
strictly higher, and drops the candidate otherwise. -/
theorem c3_overlap_resolution :
    (∀ entities : List DetectedPII,
      List.Chain' (fun a b => a.end_pos ≤ b.start_pos) (remove_overlaps entities) ∧
      ∀ d ∈ remove_overlaps entities, d ∈ entities) ∧
    (∀ (cfg : AnonCfg) (text : Text),
      List.Chain' (fun a b => a.end_pos ≤ b.start_pos) (detect_pii cfg text)) ∧
    (∀ (acc : List DetectedPII) (la e : DetectedPII),
      roStep (acc ++ [la]) e =
        if la.end_pos ≤ e.start_pos then (acc ++ [la]) ++ [e]
        else if la.confidence < e.confidence then acc ++ [e]
        else acc ++ [la]) :=
  ⟨remove_overlaps_chain,
   fun cfg text => (remove_overlaps_chain _).1,
   roStep_concat⟩

/-! ## Claim C7 -/

theorem getD_fun_inj (l1 l2 : Text) (h1 : l1.length ≤ 8) (h2 : l2.length ≤ 8)
    (hg : (fun i : Fin 8 => l1.getD i 'a') = (fun i : Fin 8 => l2.getD i 'a'))
    (hl : l1.length = l2.length) : l1 = l2 := by
  apply List.ext_getElem hl
  intro i hi1 hi2
  have hfi := congrFun hg ⟨i, by omega⟩
  simpa [List.getD_eq_getElem?_getD, List.getElem?_eq_getElem, hi1, hi2] using hfi

/-- For every digest function, category and value there are two distinct
salts producing the same token: the token depends on the salt only through
the 8-character truncation of the digest, whose range is finite, while the
salt space is infinite. -/
theorem generate_token_salt_collision (h : Text → Text) (t : PIIType) (v : Text) :
    ∃ s1 s2 : Text, s1 ≠ s2 ∧ generate_token h s1 t v = generate_token h s2 t v := by
  classical
  let dig : Text → Text := fun s =>
    (h (s ++ (':' :: (PIIType.value t).toList) ++ (':' :: v))).take 8
  let f : ℕ → (Fin 8 → Char) × Fin 9 := fun n =>
    ((fun i : Fin 8 => (dig (List.replicate n 'a')).getD i 'a'),
     ⟨min (dig (List.replicate n 'a')).length 8, by omega⟩)
  obtain ⟨n, m, hnm, hf⟩ := Finite.exists_ne_map_eq_of_infinite f
  have hlen1 : (dig (List.replicate n 'a')).length ≤ 8 := by
    simp [dig]
  have hlen2 : (dig (List.replicate m 'a')).length ≤ 8 := by
    simp [dig]
  have hfst := congrArg Prod.fst hf
  have hsnd := congrArg Prod.snd hf
  simp only [f] at hfst hsnd
  have hlen : (dig (List.replicate n 'a')).length =
      (dig (List.replicate m 'a')).length := by
    have := congrArg Fin.val hsnd
    simp only at this
    omega
  have hdig : dig (List.replicate n 'a') = dig (List.replicate m 'a') :=
    getD_fun_inj _ _ hlen1 hlen2 hfst hlen
  refine ⟨List.replicate n 'a', List.replicate m 'a', ?_, ?_⟩
  · intro heq
    apply hnm
    have := congrArg List.length heq
    simpa using this
  · unfold generate_token
    simp only
    rw [show ((h (List.replicate n 'a' ++ (':' :: (PIIType.value t).toList) ++
        (':' :: v))).take 8) = dig (List.replicate n 'a') from rfl]
    rw [show ((h (List.replicate m 'a' ++ (':' :: (PIIType.value t).toList) ++
        (':' :: v))).take 8) = dig (List.replicate m 'a') from rfl]
    rw [hdig]

/-- C7 counterexample: the claim "anonymizing the same value under a
different salt produces a different token" is false as a universal
statement — whatever the digest function (in particular SHA-256), the token
retains only 8 hex characters of it, so distinct salts with identical
tokens exist. -/
theorem c7_counterexample :
    ¬ ∀ (h : Text → Text) (s1 s2 : Text) (t : PIIType) (v : Text),
        s1 ≠ s2 → generate_token h s1 t v ≠ generate_token h s2 t v := by
  intro hclaim
  obtain ⟨s1, s2, hne, heq⟩ :=
    generate_token_salt_collision (fun l => l) .NAME ['x']
  exact hclaim (fun l => l) s1 s2 .NAME ['x'] hne heq

/-- C7 amended: token generation is a pure function of the digest function,
salt, category and value — identical inputs always yield identical tokens
(and `anonymize`'s token builder is exactly this function) — but distinct
salts do not always yield distinct tokens: for every digest function some
two distinct salts collide, because only the first 8 characters of the
digest reach the token. -/
theorem c7_token_determinism :
    (∀ (h : Text → Text) (salt1 salt2 : Text) (t : PIIType) (v : Text),
      salt1 = salt2 → generate_token h salt1 t v = generate_token h salt2 t v) ∧
    (∀ (cfg : AnonCfg) (t : PIIType) (v : Text),
      tokenOf cfg t v = generate_token cfg.sha256hex cfg.salt t v) ∧
    (∀ (h : Text → Text) (t : PIIType) (v : Text),
      ∃ s1 s2 : Text, s1 ≠ s2 ∧ generate_token h s1 t v = generate_token h s2 t v) :=
  ⟨fun _ _ _ _ _ he => by rw [he], fun _ _ _ => rfl, generate_token_salt_collision⟩

/-! ## Claim C1: replacement machinery -/

theorem replaceAll_nil (old new : Text) : replaceAll old new [] = [] := by
  rw [replaceAll]

theorem replaceAll_cons (old new : Text) (c : Char) (cs : Text) :
    replaceAll old new (c :: cs) =
      if old ≠ [] ∧ old <+: (c :: cs) then
        new ++ replaceAll old new ((c :: cs).drop old.length)
      else
        c :: replaceAll old new cs := by
  rw [replaceAll]
  rfl

theorem replace_skip (old new : Text) :
    ∀ (u v : Text), (∀ p, p < u.length → ¬ old <+: ((u ++ v).drop p)) →
      replaceAll old new (u ++ v) = u ++ replaceAll old new v := by
  intro u
  induction u with
  | nil => intro v _; rfl
  | cons c u ih =>
    intro v hno
    rw [List.cons_append, replaceAll_cons]
    rw [if_neg (by
      rintro ⟨_, hpre⟩
      exact hno 0 (by simp) (by simpa using hpre))]
    congr 1
    exact ih v (fun p hp h => hno (p + 1) (by simpa using hp) (by simpa using h))

theorem replace_hit (old new v : Text) (hold : old ≠ []) :
    replaceAll old new (old ++ v) = new ++ replaceAll old new v := by
  rcases old with _ | ⟨o, os⟩
  · exact absurd rfl hold
  · rw [List.cons_append, replaceAll_cons]
    rw [if_pos ⟨hold, by
      rw [← List.cons_append]
      exact List.prefix_append (o :: os) v⟩]
    rw [← List.cons_append, List.drop_left]

theorem replaceAll_no_occ (old new u : Text)
    (h : ∀ p, ¬ old <+: u.drop p) : replaceAll old new u = u := by
  have h2 := replace_skip old new u []
    (fun p _ hpre => h p (by simpa using hpre))
  rw [List.append_nil] at h2
  rw [h2, replaceAll_nil, List.append_nil]

/-! ## Claim C1: occurrence toolbox -/

theorem occursIn_drop (pat text : Text) (i : Nat)
    (h : OccursIn pat (text.drop i)) : OccursIn pat text := by
  obtain ⟨p, hp⟩ := h
  rw [List.drop_drop] at hp
  exact ⟨i + p, hp⟩

theorem occursIn_take (pat text : Text) (n : Nat)
    (h : OccursIn pat (text.take n)) : OccursIn pat text := by
  obtain ⟨p, hp⟩ := h
  rw [List.drop_take] at hp
  exact ⟨p, hp.trans (List.take_prefix _ _)⟩

theorem occursIn_extract (pat text : Text) (i j : Nat)
    (h : OccursIn pat (extract text i j)) : OccursIn pat text := by
  unfold extract at h
  exact occursIn_drop pat text i (occursIn_take pat (text.drop i) (j - i) h)

theorem prefix_getElem?_eq (t s : Text) (h : t <+: s) (q : Nat)
    (hq : q < t.length) : s[q]? = t[q]? := by
  obtain ⟨r, rfl⟩ := h
  rw [List.getElem?_append_left hq]

theorem occ_getElem?_eq (tok s : Text) (p q : Nat) (h : tok <+: s.drop p)
    (hq : q < tok.length) : s[p + q]? = tok[q]? := by
  have h2 := prefix_getElem?_eq tok (s.drop p) h q hq
  rwa [List.getElem?_drop] at h2

theorem prefix_of_prefix_append (t x y : Text) (h : t <+: x ++ y)
    (hlen : t.length ≤ x.length) : t <+: x := by
  rw [List.prefix_iff_eq_take] at h
  rw [List.take_append_eq_append_take, Nat.sub_eq_zero_of_le hlen,
    List.take_zero, List.append_nil] at h
  rw [h]
  exact List.take_prefix _ _

/-! ## Claim C1: token shape -/

theorem tokenOf_eq_shape (cfg : AnonCfg) (t : PIIType) (v : Text) :
    tokenOf cfg t v = '[' :: tokenBody cfg t v ++ [']'] := rfl

theorem isHexChar_no_bracket (c : Char) (h : isHexChar c = true) :
    c ≠ '[' ∧ c ≠ ']' := by
  simp only [isHexChar, List.mem_cons, List.not_mem_nil, or_false,
    decide_eq_true_eq] at h
  rcases h with h | h | h | h | h | h | h | h | h | h | h | h | h | h | h | h <;>
    subst h <;> exact ⟨by decide, by decide⟩

theorem tokenBody_no_bracket (cfg : AnonCfg) (t : PIIType) (v : Text)
    (hhex : HexDigest cfg.sha256hex) :
    ∀ c ∈ tokenBody cfg t v, c ≠ '[' ∧ c ≠ ']' := by
  intro c hc
  unfold tokenBody at hc
  rcases List.mem_append.mp hc with hc | hc
  · have hall : ∀ x ∈ (PIIType.value t).toList.map Char.toUpper,
        x ≠ '[' ∧ x ≠ ']' := by
      cases t <;> decide
    exact hall c hc
  · rcases List.mem_cons.mp hc with hc | hc
    · subst hc
      exact ⟨by decide, by decide⟩
    · exact isHexChar_no_bracket c (hhex _ c (List.mem_of_mem_take hc))

/-! ## Claim C1: where a token can occur -/

theorem tok_len (b : Text) : ('[' :: b ++ [']']).length = b.length + 2 := by
  simp

theorem tok_getElem_mid (b : Text) (q : Nat) (h1 : 1 ≤ q) (h2 : q ≤ b.length) :
    ∃ c ∈ b, ('[' :: b ++ [']'])[q]? = some c := by
  rcases q with _ | q
  · omega
  · have hq : q < b.length := by omega
    exact ⟨b[q], List.getElem_mem hq,
      by simp [List.getElem?_append_left hq, List.getElem?_eq_getElem hq]⟩

theorem tok_getElem_last (b : Text) :
    ('[' :: b ++ [']'])[b.length + 1]? = some ']' := by
  simp

theorem tok_getElem_zero (b : Text) : ('[' :: b ++ [']'])[0]? = some '[' := by
  simp

theorem tok_two_le (b : Text) : 2 ≤ ('[' :: b ++ [']']).length := by
  simp

/-- The char of `tok` at a positive index strictly inside it is never `[`,
and at any index other than the last it is never `]`. -/
theorem tok_char_analysis (b : Text) (hnb : ∀ c ∈ b, c ≠ '[' ∧ c ≠ ']')
    (q : Nat) (h1 : 1 ≤ q) (h2 : q < b.length + 2) (c : Char)
    (hc : ('[' :: b ++ [']'])[q]? = some c) :
    (c ≠ '[') ∧ (q ≤ b.length → c ≠ ']') := by
  by_cases hq : q ≤ b.length
  · obtain ⟨c2, hc2, hval⟩ := tok_getElem_mid b q h1 hq
    rw [hval, Option.some.injEq] at hc
    subst hc
    exact ⟨(hnb c2 hc2).1, fun _ => (hnb c2 hc2).2⟩
  · have hlast : q = b.length + 1 := by omega
    subst hlast
    rw [tok_getElem_last, Option.some.injEq] at hc
    subst hc
    exact ⟨by decide, fun h => absurd h (by omega)⟩

/-- An occurrence of a bracket-delimited token cannot start strictly inside
a literal block `u` that is itself token-free, provided what follows `u` is
empty or starts with `[`. -/
theorem no_occ_lit (tok b : Text) (htok : tok = '[' :: b ++ [']'])
    (hnb : ∀ c ∈ b, c ≠ '[' ∧ c ≠ ']')
    (u w : Text)
    (hu : ∀ p, ¬ tok <+: u.drop p)
    (hw : w = [] ∨ ∃ w2, w = '[' :: w2) :
    ∀ p, p < u.length → ¬ tok <+: ((u ++ w).drop p) := by
  intro p hp hpre
  have hdropapp : (u ++ w).drop p = u.drop p ++ w := by
    rw [List.drop_append_eq_append_drop, Nat.sub_eq_zero_of_le (le_of_lt hp),
      List.drop_zero]
  by_cases hfit : p + tok.length ≤ u.length
  · apply hu p
    rw [hdropapp] at hpre
    exact prefix_of_prefix_append tok (u.drop p) w hpre
      (by rw [List.length_drop]; omega)
  · have hlentok : 2 ≤ tok.length := by rw [htok]; exact tok_two_le b
    have hlenpre := hpre.length_le
    rw [List.length_drop, List.length_append] at hlenpre
    have hwne : w ≠ [] := by
      intro hnil
      subst hnil
      simp only [List.length_nil, Nat.add_zero] at hlenpre
      omega
    rcases hw with rfl | ⟨w2, rfl⟩
    · exact absurd rfl hwne
    have hq2 : u.length - p < tok.length := by omega
    have hchar := occ_getElem?_eq tok (u ++ '[' :: w2) p (u.length - p) hpre hq2
    have hpos : p + (u.length - p) = u.length := by omega
    rw [hpos, List.getElem?_append_right (le_refl u.length)] at hchar
    simp only [Nat.sub_self, List.getElem?_cons_zero] at hchar
    rw [htok] at hchar
    have hanal := tok_char_analysis b hnb (u.length - p) (by omega)
      (by rw [htok] at hq2; simp at hq2; omega) '[' hchar.symm
    exact hanal.1 rfl

/-- An occurrence of a bracket-delimited token cannot start at or strictly
inside a *different* bracket-delimited token. -/
theorem no_occ_in_tok (tok b tok2 b2 : Text)
    (htok : tok = '[' :: b ++ [']']) (hnb : ∀ c ∈ b, c ≠ '[' ∧ c ≠ ']')
    (htok2 : tok2 = '[' :: b2 ++ [']']) (hnb2 : ∀ c ∈ b2, c ≠ '[' ∧ c ≠ ']')
    (hne : tok ≠ tok2) (w : Text) :
    ∀ p, p < tok2.length → ¬ tok <+: ((tok2 ++ w).drop p) := by
  intro p hp hpre
  have hlt2 : tok2.length = b2.length + 2 := by rw [htok2]; exact tok_len b2
  have hlt : tok.length = b.length + 2 := by rw [htok]; exact tok_len b
  rcases Nat.eq_zero_or_pos p with rfl | hppos
  · rw [List.drop_zero] at hpre
    by_cases hfit : tok.length ≤ tok2.length
    · have hpre2 : tok <+: tok2 := prefix_of_prefix_append tok tok2 w hpre hfit
      by_cases heq : tok.length = tok2.length
      · exact hne (hpre2.eq_of_length heq)
      · -- the final ']' of tok lands strictly inside tok2's body
        have hqbound : tok.length - 1 < tok.length := by omega
        have hchar := prefix_getElem?_eq tok tok2 hpre2 (tok.length - 1) hqbound
        have hidx : tok.length - 1 = b.length + 1 := by omega
        have hget : tok[tok.length - 1]? = some ']' := by
          rw [hidx, htok]
          exact tok_getElem_last b
        rw [hget, htok2] at hchar
        have hanal := tok_char_analysis b2 hnb2 (tok.length - 1) (by omega)
          (by omega) ']' hchar
        exact (hanal.2 (by omega)) rfl
    · -- tok longer than tok2: tok's body index hits tok2's final ']'
      have hqbound : tok2.length - 1 < tok.length := by omega
      have hchar := occ_getElem?_eq tok (tok2 ++ w) 0 (tok2.length - 1)
        (by rwa [List.drop_zero]) hqbound
      rw [Nat.zero_add, List.getElem?_append_left (by omega)] at hchar
      have hidx2 : tok2.length - 1 = b2.length + 1 := by omega
      have hget2 : tok2[tok2.length - 1]? = some ']' := by
        rw [hidx2, htok2]
        exact tok_getElem_last b2
      rw [hget2, htok] at hchar
      have hanal := tok_char_analysis b hnb (tok2.length - 1) (by omega)
        (by omega) ']' hchar.symm
      exact (hanal.2 (by omega)) rfl
  · -- p ≥ 1: tok's leading '[' lands strictly inside tok2
    have hchar := occ_getElem?_eq tok (tok2 ++ w) p 0 hpre (by omega)
    rw [Nat.add_zero, List.getElem?_append_left hp] at hchar
    have hget0 : tok[0]? = some '[' := by
      rw [htok]
      exact tok_getElem_zero b
    rw [hget0, htok2] at hchar
    have hanal := tok_char_analysis b2 hnb2 p hppos (by omega) '[' hchar
    exact hanal.1 rfl

/-! ## Claim C1: splicing and rendering -/

theorem extract_zero (t : Text) (j : Nat) : extract t 0 j = t.take j := by
  unfold extract
  rw [List.drop_zero, Nat.sub_zero]

theorem extract_glue (t : Text) (i j k : Nat) (hij : i ≤ j) (hjk : j ≤ k) :
    extract t i k = extract t i j ++ extract t j k := by
  unfold extract
  have h1 : k - i = (j - i) + (k - j) := by omega
  rw [h1, List.take_add, List.drop_drop]
  have h2 : i + (j - i) = j := by omega
  rw [h2]

theorem drop_glue (t : Text) (i j : Nat) (hij : i ≤ j) :
    t.drop i = extract t i j ++ t.drop j := by
  unfold extract
  conv_lhs => rw [← List.take_append_drop (j - i) (t.drop i)]
  rw [List.drop_drop]
  have h2 : i + (j - i) = j := by omega
  rw [h2]

theorem extract_length (t : Text) (j : Nat) (hj : j ≤ t.length) :
    (extract t 0 j).length = j := by
  rw [extract_zero, List.length_take]
  omega

theorem render_split (cfg : AnonCfg) (text : Text) (ds : List DetectedPII)
    (i j : Nat) (hij : i ≤ j) (hj : ∀ d ∈ ds.head?, j ≤ d.start_pos) :
    render cfg text i ds = extract text i j ++ render cfg text j ds := by
  cases ds with
  | nil =>
    simp only [render]
    exact drop_glue text i j hij
  | cons d ds =>
    have hd : j ≤ d.start_pos := hj d rfl
    simp only [render]
    rw [extract_glue text i j d.start_pos hij hd]
    simp only [List.append_assoc]

theorem anonFold_fst (cfg : AnonCfg) (L : List DetectedPII) :
    ∀ st : Text × List (Text × Text) × List (Text × Text),
      (L.foldl (anonFold cfg) st).1 = L.foldl (spliceText cfg) st.1 := by
  induction L with
  | nil => intro st; rfl
  | cons d L ih =>
    intro st
    rw [List.foldl_cons, List.foldl_cons, ih]
    rfl

theorem anonFold_map (cfg : AnonCfg) (L : List DetectedPII) :
    ∀ st : Text × List (Text × Text) × List (Text × Text),
      (L.foldl (anonFold cfg) st).2.1 =
        L.foldl (fun m d => dictInsert m (tokOf cfg d) d.original_value) st.2.1 := by
  induction L with
  | nil => intro st; rfl
  | cons d L ih =>
    intro st
    rw [List.foldl_cons, List.foldl_cons, ih]
    rfl

theorem chain_spans_pairwise (text : Text) :
    ∀ ds : List DetectedPII,
      List.Chain' (fun a b => a.end_pos ≤ b.start_pos) ds → SpansOk text ds →
      ds.Pairwise (fun a b => a.end_pos ≤ b.start_pos) := by
  intro ds
  induction ds with
  | nil => intro _ _; exact List.Pairwise.nil
  | cons d ds ih =>
    intro hchain hspans
    obtain ⟨hhead, hchain2⟩ := List.chain'_cons'.mp hchain
    have hspans2 : SpansOk text ds := fun e he => hspans e (List.mem_cons_of_mem d he)
    have hpair := ih hchain2 hspans2
    refine List.pairwise_cons.mpr ⟨?_, hpair⟩
    intro b hb
    rcases ds with _ | ⟨e, ds2⟩
    · cases hb
    · have hde : d.end_pos ≤ e.start_pos := hhead e rfl
      rcases List.mem_cons.mp hb with rfl | hb2
      · exact hde
      · have hee := (hspans2 e (by simp)).1
        have heb : e.end_pos ≤ b.start_pos := (List.pairwise_cons.mp hpair).1 b hb2
        omega

theorem pairwise_start_lt (text : Text) (ds : List DetectedPII)
    (hpair : ds.Pairwise (fun a b => a.end_pos ≤ b.start_pos))
    (hspans : SpansOk text ds) :
    ds.Pairwise (fun a b => a.start_pos < b.start_pos) := by
  refine hpair.imp_of_mem ?_
  intro a b ha _ hab
  have h1 := (hspans a ha).1
  omega

theorem descLe_trans (a b c : DetectedPII) (h1 : descLe a b = true)
    (h2 : descLe b c = true) : descLe a c = true := by
  simp only [descLe, decide_eq_true_eq] at h1 h2 ⊢
  omega

theorem descLe_total (a b : DetectedPII) : (descLe a b || descLe b a) = true := by
  simp only [descLe, Bool.or_eq_true, decide_eq_true_eq]
  omega

theorem mergeSort_desc_eq_reverse (l : List DetectedPII)
    (h : l.Pairwise (fun a b => a.start_pos < b.start_pos)) :
    l.mergeSort descLe = l.reverse := by
  haveI : IsAntisymm DetectedPII (fun a b => b.start_pos < a.start_pos) :=
    ⟨fun a b h1 h2 => absurd h1 (by omega)⟩
  have hperm : (l.mergeSort descLe).Perm l.reverse :=
    (List.mergeSort_perm l descLe).trans l.reverse_perm.symm
  have hne : l.Pairwise (fun a b => a.start_pos ≠ b.start_pos) :=
    h.imp (fun hab => by omega)
  have hne2 : (l.mergeSort descLe).Pairwise (fun a b => a.start_pos ≠ b.start_pos) := by
    refine (List.Perm.pairwise_iff ?_ (List.mergeSort_perm l descLe)).mpr hne
    intro x y hxy
    omega
  have hsorted : (l.mergeSort descLe).Pairwise (fun a b => descLe a b = true) :=
    List.sorted_mergeSort descLe_trans descLe_total l
  have hsorted2 : (l.mergeSort descLe).Pairwise (fun a b => b.start_pos < a.start_pos) := by
    refine (hsorted.and hne2).imp ?_
    intro a b hab
    obtain ⟨g1, g2⟩ := hab
    simp only [descLe, decide_eq_true_eq] at g1
    omega
  have hsorted3 : l.reverse.Pairwise (fun a b => b.start_pos < a.start_pos) :=
    List.pairwise_reverse.mpr h
  exact List.eq_of_perm_of_sorted hperm hsorted2 hsorted3

theorem spliceFold_render (cfg : AnonCfg) (text : Text) :
    ∀ ds : List DetectedPII,
      List.Chain' (fun a b => a.end_pos ≤ b.start_pos) ds → SpansOk text ds →
      ds.reverse.foldl (spliceText cfg) text = render cfg text 0 ds := by
  intro ds
  induction ds with
  | nil =>
    intro _ _
    simp [render]
  | cons d ds ih =>
    intro hchain hspans
    obtain ⟨hhead, hchain2⟩ := List.chain'_cons'.mp hchain
    have hspans2 : SpansOk text ds := fun e he => hspans e (List.mem_cons_of_mem d he)
    have hd := hspans d (by simp)
    rw [List.reverse_cons, List.foldl_append, ih hchain2 hspans2,
      List.foldl_cons, List.foldl_nil]
    unfold spliceText
    have hsplit : render cfg text 0 ds =
        extract text 0 d.end_pos ++ render cfg text d.end_pos ds :=
      render_split cfg text ds 0 d.end_pos (Nat.zero_le _) hhead
    rw [hsplit]
    have hlen : (extract text 0 d.end_pos).length = d.end_pos :=
      extract_length text d.end_pos hd.2.1
    rw [List.take_append_eq_append_take, hlen]
    have h0 : d.start_pos - d.end_pos = 0 := by omega
    rw [h0, List.take_zero, List.append_nil]
    rw [List.drop_append_eq_append_drop, hlen, Nat.sub_self, List.drop_zero,
      List.drop_eq_nil_of_le hlen.le, List.nil_append]
    rw [extract_zero, List.take_take]
    have hmin : d.start_pos ⊓ d.end_pos = d.start_pos := inf_eq_left.mpr (le_of_lt hd.1)
    rw [hmin]
    simp only [render, extract_zero]

/-! ## Claim C1: the mapping dict -/

theorem dictInsert_mem {α β : Type} [DecidableEq α] (m : List (α × β)) (k : α)
    (v : β) : ∀ q ∈ dictInsert m k v, q ∈ m ∨ q = (k, v) := by
  intro q hq
  unfold dictInsert at hq
  split at hq
  · obtain ⟨p, hp, hpe⟩ := List.mem_map.mp hq
    by_cases hpk : p.1 = k
    · right
      rw [← hpe, if_pos hpk]
    · left
      rw [← hpe, if_neg hpk]
      exact hp
  · rcases List.mem_append.mp hq with h | h
    · exact Or.inl h
    · right
      simpa using h

theorem dictInsert_key_self {α β : Type} [DecidableEq α] (m : List (α × β))
    (k : α) (v : β) : ∃ v2, (k, v2) ∈ dictInsert m k v := by
  unfold dictInsert
  split
  · rename_i h
    rw [List.any_eq_true] at h
    obtain ⟨p, hp, hpk⟩ := h
    rw [decide_eq_true_eq] at hpk
    exact ⟨v, List.mem_map.mpr ⟨p, hp, by rw [if_pos hpk]⟩⟩
  · exact ⟨v, by simp⟩

theorem dictInsert_key_mono {α β : Type} [DecidableEq α] (m : List (α × β))
    (k k2 : α) (v : β) (h : ∃ v2, (k2, v2) ∈ m) :
    ∃ v2, (k2, v2) ∈ dictInsert m k v := by
  obtain ⟨v2, hv2⟩ := h
  unfold dictInsert
  split
  · by_cases hk : k2 = k
    · subst hk
      exact ⟨v, List.mem_map.mpr ⟨(k2, v2), hv2, by simp⟩⟩
    · exact ⟨v2, List.mem_map.mpr ⟨(k2, v2), hv2, by simp [hk]⟩⟩
  · exact ⟨v2, List.mem_append_left _ hv2⟩

theorem buildMap_fold_mem (cfg : AnonCfg) :
    ∀ (l : List DetectedPII) (m0 : List (Text × Text)) (q : Text × Text),
      q ∈ l.foldl (fun m d => dictInsert m (tokOf cfg d) d.original_value) m0 →
      q ∈ m0 ∨ ∃ d ∈ l, q.1 = tokOf cfg d ∧ q.2 = d.original_value := by
  intro l
  induction l with
  | nil => intro m0 q hq; exact Or.inl hq
  | cons d l ih =>
    intro m0 q hq
    rw [List.foldl_cons] at hq
    rcases ih _ q hq with h | h
    · rcases dictInsert_mem m0 (tokOf cfg d) d.original_value q h with h2 | h2
      · exact Or.inl h2
      · exact Or.inr ⟨d, by simp, by rw [h2], by rw [h2]⟩
    · obtain ⟨d2, hd2, he⟩ := h
      exact Or.inr ⟨d2, by simp [hd2], he⟩

theorem buildMap_fold_covers (cfg : AnonCfg) :
    ∀ (l : List DetectedPII) (m0 : List (Text × Text)) (d : DetectedPII),
      d ∈ l ∨ (∃ v, (tokOf cfg d, v) ∈ m0) →
      ∃ v, (tokOf cfg d, v) ∈
        l.foldl (fun m e => dictInsert m (tokOf cfg e) e.original_value) m0 := by
  intro l
  induction l with
  | nil =>
    intro m0 d h
    rcases h with h | h
    · cases h
    · exact h
  | cons e l ih =>
    intro m0 d h
    rw [List.foldl_cons]
    rcases h with h | h
    · rcases List.mem_cons.mp h with rfl | h2
      · exact ih _ d (Or.inr (dictInsert_key_self m0 (tokOf cfg d) d.original_value))
      · exact ih _ d (Or.inl h2)
    · exact ih _ d (Or.inr (dictInsert_key_mono m0 (tokOf cfg e) (tokOf cfg d)
        e.original_value h))

theorem anonymize_nonempty (cfg : AnonCfg) (text : Text) (d0 : DetectedPII)
    (ds0 : List DetectedPII) (hD : detect_pii cfg text = d0 :: ds0) :
    (anonymize cfg text).anonymized_text =
      ((d0 :: ds0).mergeSort descLe).foldl (spliceText cfg) text ∧
    (anonymize cfg text).mapping =
      ((d0 :: ds0).mergeSort descLe).foldl
        (fun m d => dictInsert m (tokOf cfg d) d.original_value) [] := by
  unfold anonymize
  rw [hD]
  rw [if_neg (by simp)]
  exact ⟨anonFold_fst cfg _ _, anonFold_map cfg _ _⟩

/-! ## Claim C1: the `deanonymize` loop inverts the rendering -/

theorem replace_render (cfg : AnonCfg) (text : Text)
    (hhex : HexDigest cfg.sha256hex) (tok val : Text)
    (hshape : ∃ ty vv, tok = tokenOf cfg ty vv)
    (hnocc : ¬ OccursIn tok text) :
    ∀ (L : List DetectedPII) (i : Nat),
      SpansOk text L →
      L.Pairwise (fun a b => a.end_pos ≤ b.start_pos) →
      (∀ d ∈ L.head?, i ≤ d.start_pos) →
      (∀ d ∈ L, tokOf cfg d = tok → d.original_value = val) →
      replaceAll tok val (render cfg text i L) =
        render cfg text i (L.filter (fun d => !(tokOf cfg d == tok))) := by
  obtain ⟨ty, vv, htok0⟩ := hshape
  have htok : tok = '[' :: tokenBody cfg ty vv ++ [']'] := by
    rw [htok0]
    rfl
  have hnb : ∀ c ∈ tokenBody cfg ty vv, c ≠ '[' ∧ c ≠ ']' :=
    tokenBody_no_bracket cfg ty vv hhex
  have htokne : tok ≠ [] := by
    rw [htok]
    exact List.cons_ne_nil _ _
  intro L
  induction L with
  | nil =>
    intro i _ _ _ _
    simp only [render, List.filter_nil]
    apply replaceAll_no_occ
    intro p hpre
    rw [List.drop_drop] at hpre
    exact hnocc ⟨i + p, hpre⟩
  | cons d L ih =>
    intro i hspans hpair hhead hcons
    have hspans2 : SpansOk text L := fun e he => hspans e (List.mem_cons_of_mem d he)
    obtain ⟨hdL, hpair2⟩ := List.pairwise_cons.mp hpair
    have hd := hspans d (by simp)
    have hid : i ≤ d.start_pos := hhead d rfl
    have hhead2 : ∀ e ∈ L.head?, d.end_pos ≤ e.start_pos :=
      fun e he => hdL e (List.mem_of_mem_head? he)
    have hcons2 : ∀ e ∈ L, tokOf cfg e = tok → e.original_value = val :=
      fun e he => hcons e (List.mem_cons_of_mem d he)
    have hih := ih d.end_pos hspans2 hpair2 hhead2 hcons2
    have htokd : tokOf cfg d =
        '[' :: tokenBody cfg d.pii_type d.original_value ++ [']'] := rfl
    have hnbd : ∀ c ∈ tokenBody cfg d.pii_type d.original_value,
        c ≠ '[' ∧ c ≠ ']' :=
      tokenBody_no_bracket cfg d.pii_type d.original_value hhex
    have hU : ∀ p, ¬ tok <+: (extract text i d.start_pos).drop p := by
      intro p hpre
      exact hnocc (occursIn_extract tok text i d.start_pos ⟨p, hpre⟩)
    have hlit : ∀ p, p < (extract text i d.start_pos).length →
        ¬ tok <+: ((extract text i d.start_pos ++
          (tokOf cfg d ++ render cfg text d.end_pos L)).drop p) :=
      no_occ_lit tok (tokenBody cfg ty vv) htok hnb _ _ hU
        (Or.inr ⟨tokenBody cfg d.pii_type d.original_value ++ [']'] ++
          render cfg text d.end_pos L, by rw [htokd]; simp⟩)
    by_cases heq : tokOf cfg d = tok
    · have hval : d.original_value = val := hcons d (by simp) heq
      simp only [render]
      rw [List.append_assoc]
      rw [replace_skip tok val (extract text i d.start_pos)
        (tokOf cfg d ++ render cfg text d.end_pos L) hlit]
      rw [heq, replace_hit tok val (render cfg text d.end_pos L) htokne, hih]
      rw [List.filter_cons_of_neg (by simp [heq])]
      rw [render_split cfg text (L.filter (fun e => !(tokOf cfg e == tok)))
        i d.end_pos (by omega)
        (fun e he => hdL e (List.mem_of_mem_filter (List.mem_of_mem_head? he)))]
      rw [← hval, hd.2.2, ← List.append_assoc,
        ← extract_glue text i d.start_pos d.end_pos hid (le_of_lt hd.1)]
    · simp only [render]
      have hskip : ∀ p, p < (extract text i d.start_pos ++ tokOf cfg d).length →
          ¬ tok <+: (((extract text i d.start_pos ++ tokOf cfg d) ++
            render cfg text d.end_pos L).drop p) := by
        intro p hp hpre
        rw [List.append_assoc] at hpre
        by_cases hpu : p < (extract text i d.start_pos).length
        · exact hlit p hpu hpre
        · rw [List.length_append] at hp
          rw [List.drop_append_eq_append_drop,
            List.drop_eq_nil_of_le (by omega), List.nil_append] at hpre
          exact no_occ_in_tok tok (tokenBody cfg ty vv)
            (tokOf cfg d) (tokenBody cfg d.pii_type d.original_value)
            htok hnb htokd hnbd (Ne.symm heq) (render cfg text d.end_pos L)
            (p - (extract text i d.start_pos).length) (by omega) hpre
      rw [replace_skip tok val (extract text i d.start_pos ++ tokOf cfg d)
        (render cfg text d.end_pos L) hskip, hih]
      rw [List.filter_cons_of_pos (by simp [heq])]
      simp only [render, List.append_assoc]

theorem dean_fold (cfg : AnonCfg) (text : Text) (hhex : HexDigest cfg.sha256hex) :
    ∀ (mp : List (Text × Text)) (L : List DetectedPII),
      SpansOk text L →
      L.Pairwise (fun a b => a.end_pos ≤ b.start_pos) →
      (∀ q ∈ mp, ∃ ty vv, q.1 = tokenOf cfg ty vv) →
      (∀ q ∈ mp, ¬ OccursIn q.1 text) →
      (∀ q ∈ mp, ∀ d ∈ L, tokOf cfg d = q.1 → d.original_value = q.2) →
      mp.foldl (fun acc p => replaceAll p.1 p.2 acc) (render cfg text 0 L) =
        render cfg text 0 (L.filter (keepB cfg mp)) := by
  intro mp
  induction mp with
  | nil =>
    intro L _ _ _ _ _
    rw [List.foldl_nil]
    have h0 : L.filter (keepB cfg []) = L :=
      List.filter_eq_self.mpr (fun a _ => rfl)
    rw [h0]
  | cons q mp ih =>
    intro L hspans hpair hshape hnocc hcons
    rw [List.foldl_cons]
    have h1 : replaceAll q.1 q.2 (render cfg text 0 L) =
        render cfg text 0 (L.filter (fun d => !(tokOf cfg d == q.1))) :=
      replace_render cfg text hhex q.1 q.2 (hshape q (by simp))
        (hnocc q (by simp)) L 0 hspans hpair
        (fun d _ => Nat.zero_le _) (fun d hd => hcons q (by simp) d hd)
    rw [h1]
    rw [ih (L.filter (fun d => !(tokOf cfg d == q.1)))
      (fun e he => hspans e (List.mem_of_mem_filter he))
      (hpair.sublist (List.filter_sublist L))
      (fun q2 hq2 => hshape q2 (List.mem_cons_of_mem q hq2))
      (fun q2 hq2 => hnocc q2 (List.mem_cons_of_mem q hq2))
      (fun q2 hq2 e he hte => hcons q2 (List.mem_cons_of_mem q hq2) e
        (List.mem_of_mem_filter he) hte)]
    rw [List.filter_filter]
    congr 1
    apply List.filter_congr
    intro d _
    show (keepB cfg mp d && !(tokOf cfg d == q.1)) = keepB cfg (q :: mp) d
    unfold keepB
    rw [List.all_cons]
    exact Bool.and_comm _ _

theorem mergeSort_singleton_eq {α : Type} (x : α) (le : α → α → Bool) :
    [x].mergeSort le = [x] :=
  List.perm_singleton.mp (List.mergeSort_perm [x] le)

theorem c1detect : detect_pii c1cfg c1text =
    [{ pii_type := .NAME, original_value := "juan".toList, start_pos := 5,
       end_pos := 9, confidence := 70 }] := by
  show remove_overlaps (patternDetections c1cfg c1text ++ nameDetections c1text) = _
  have h1 : patternDetections c1cfg c1text ++ nameDetections c1text =
      [{ pii_type := .NAME, original_value := "juan".toList, start_pos := 5,
         end_pos := 9, confidence := 70 }] := by decide
  rw [h1]
  unfold remove_overlaps
  rw [mergeSort_singleton_eq]
  rfl

theorem mergeSort_asc_eq_self (l : List DetectedPII)
    (h : l.Pairwise (fun a b => a.start_pos < b.start_pos)) :
    l.mergeSort roLe = l := by
  haveI : IsAntisymm DetectedPII (fun a b => a.start_pos < b.start_pos) :=
    ⟨fun a b h1 h2 => absurd h1 (by omega)⟩
  have hne : l.Pairwise (fun a b => a.start_pos ≠ b.start_pos) :=
    h.imp (fun hab => by omega)
  have hne2 : (l.mergeSort roLe).Pairwise (fun a b => a.start_pos ≠ b.start_pos) := by
    refine (List.Perm.pairwise_iff ?_ (List.mergeSort_perm l roLe)).mpr hne
    intro x y hxy
    omega
  have hsorted : (l.mergeSort roLe).Pairwise (fun a b => roLe a b = true) :=
    List.sorted_mergeSort roLe_trans roLe_total l
  have hsorted2 : (l.mergeSort roLe).Pairwise (fun a b => a.start_pos < b.start_pos) := by
    refine (hsorted.and hne2).imp ?_
    intro a b hab
    obtain ⟨g1, g2⟩ := hab
    rw [roLe_iff] at g1
    omega
  exact List.eq_of_perm_of_sorted (List.mergeSort_perm l roLe) hsorted2 h

theorem c1mdetect : detect_pii c1cfg c1mtext = [c1d1, c1d2] := by
  show remove_overlaps (patternDetections c1cfg c1mtext ++ nameDetections c1mtext) = _
  have h1 : patternDetections c1cfg c1mtext ++ nameDetections c1mtext =
      [c1d1, c1d2] := by decide
  rw [h1]
  unfold remove_overlaps
  rw [mergeSort_asc_eq_self [c1d1, c1d2] (by decide)]
  decide

/-! ## Claim C1 -/

/-- C1 counterexample: the round-trip claim as stated is false. Under a
legitimate hex digest (here a constant one; the truncation to 8 characters
of a real SHA-256 digest admits the same collisions), the two distinct
values "juan" and "maría" of the input "juan maría" receive the same token.
Every proviso the claim states holds — the detections are non-overlapping,
no original detected value is a substring of any generated token, and no
token occurs naturally in the input — yet the token→value mapping `dict`
retains only the value written last, and `deanonymize` rewrites both
occurrences of the shared token to "juan", returning "juan juan" instead of
the input. -/
theorem c1_counterexample :
    HexDigest c1cfg.sha256hex ∧
    SpansOk c1mtext (detect_pii c1cfg c1mtext) ∧
    List.Chain' (fun a b => a.end_pos ≤ b.start_pos) (detect_pii c1cfg c1mtext) ∧
    (∀ d ∈ detect_pii c1cfg c1mtext, ¬ OccursIn (tokOf c1cfg d) c1mtext) ∧
    (∀ d ∈ detect_pii c1cfg c1mtext, ∀ d2 ∈ detect_pii c1cfg c1mtext,
      ¬ OccursIn d.original_value (tokOf c1cfg d2)) ∧
    deanonymize (anonymize c1cfg c1mtext).anonymized_text
      (anonymize c1cfg c1mtext).mapping ≠ c1mtext := by
  refine ⟨fun s => (by decide : ∀ c ∈ ("abcd1234".toList : Text), isHexChar c = true),
    by rw [c1mdetect]; decide,
    by rw [c1mdetect]; exact List.chain'_pair.mpr (by decide),
    by rw [c1mdetect]; decide, by rw [c1mdetect]; decide, ?_⟩
  obtain ⟨hA, hM⟩ := anonymize_nonempty c1cfg c1mtext c1d1 [c1d2] c1mdetect
  rw [mergeSort_desc_eq_reverse [c1d1, c1d2] (by decide)] at hA hM
  have hA2 : (anonymize c1cfg c1mtext).anonymized_text =
      c1tok ++ (' ' :: c1tok) := by
    rw [hA]
    decide
  have hM2 : (anonymize c1cfg c1mtext).mapping = [(c1tok, "juan".toList)] := by
    rw [hM]
    decide
  rw [hA2, hM2]
  unfold deanonymize
  rw [List.foldl_cons, List.foldl_nil]
  have hhit1 : replaceAll c1tok "juan".toList (c1tok ++ (' ' :: c1tok)) =
      "juan".toList ++ replaceAll c1tok "juan".toList (' ' :: c1tok) :=
    replace_hit _ _ _ (by decide)
  have hcons : replaceAll c1tok "juan".toList (' ' :: c1tok) =
      ' ' :: replaceAll c1tok "juan".toList c1tok := by
    rw [replaceAll_cons, if_neg (by decide)]
  have hhit2 : replaceAll c1tok "juan".toList (c1tok ++ []) =
      "juan".toList ++ replaceAll c1tok "juan".toList [] :=
    replace_hit _ _ _ (by decide)
  rw [List.append_nil] at hhit2
  rw [hhit1, hcons, hhit2, replaceAll_nil]
  decide

/-- C1 amended: anonymization round-trip. For any anonymizer instance whose digest
function produces hex strings, if the spans reported by the detectors are
well-formed (in range, the recorded value being the spanned substring), no
generated token occurs naturally in the input, no original detected value is
a substring of any generated token, and token generation is injective on the
detected values (no truncated-digest collision), then `deanonymize` applied
to `anonymize`'s output text and mapping reconstructs the input exactly.
Non-overlap of the detections is not assumed: `remove_overlaps` guarantees
it (`remove_overlaps_chain`). -/
theorem c1_anonymize_roundtrip (cfg : AnonCfg) (text : Text)
    (hhex : HexDigest cfg.sha256hex)
    (hspans : SpansOk text (detect_pii cfg text))
    (hnocc : ∀ d ∈ detect_pii cfg text, ¬ OccursIn (tokOf cfg d) text)
    (hnosub : ∀ d ∈ detect_pii cfg text, ∀ d2 ∈ detect_pii cfg text,
      ¬ OccursIn d.original_value (tokOf cfg d2))
    (hinj : ∀ d ∈ detect_pii cfg text, ∀ d2 ∈ detect_pii cfg text,
      tokOf cfg d = tokOf cfg d2 → d.original_value = d2.original_value) :
    deanonymize (anonymize cfg text).anonymized_text (anonymize cfg text).mapping
      = text := by
  rcases hD : detect_pii cfg text with _ | ⟨d0, ds0⟩
  · simp [anonymize, hD, deanonymize]
  · rw [hD] at hspans hnocc hinj
    have hchain : List.Chain' (fun a b => a.end_pos ≤ b.start_pos) (d0 :: ds0) := by
      have hc := (remove_overlaps_chain
        (patternDetections cfg text ++ nameDetections text)).1
      have he : remove_overlaps (patternDetections cfg text ++ nameDetections text)
          = d0 :: ds0 := hD
      rwa [he] at hc
    have hpairE : (d0 :: ds0).Pairwise (fun a b => a.end_pos ≤ b.start_pos) :=
      chain_spans_pairwise text (d0 :: ds0) hchain hspans
    have hlt : (d0 :: ds0).Pairwise (fun a b => a.start_pos < b.start_pos) :=
      pairwise_start_lt text (d0 :: ds0) hpairE hspans
    obtain ⟨hA, hM⟩ := anonymize_nonempty cfg text d0 ds0 hD
    rw [mergeSort_desc_eq_reverse (d0 :: ds0) hlt] at hA hM
    rw [hA, hM, spliceFold_render cfg text (d0 :: ds0) hchain hspans]
    unfold deanonymize
    have hmem : ∀ q ∈ ((d0 :: ds0).reverse).foldl
        (fun m d => dictInsert m (tokOf cfg d) d.original_value) [],
        ∃ d ∈ d0 :: ds0, q.1 = tokOf cfg d ∧ q.2 = d.original_value := by
      intro q hq
      rcases buildMap_fold_mem cfg ((d0 :: ds0).reverse) [] q hq with h | h
      · cases h
      · obtain ⟨d, hd, he⟩ := h
        exact ⟨d, List.mem_reverse.mp hd, he⟩
    rw [dean_fold cfg text hhex _ (d0 :: ds0) hspans hpairE
      (fun q hq => by
        obtain ⟨d, _, h1, _⟩ := hmem q hq
        exact ⟨d.pii_type, d.original_value, h1⟩)
      (fun q hq => by
        obtain ⟨d, hd, h1, _⟩ := hmem q hq
        rw [h1]
        exact hnocc d hd)
      (fun q hq e he hte => by
        obtain ⟨d, hd, h1, h2⟩ := hmem q hq
        rw [h2]
        exact hinj e he d hd (by rw [hte, h1]))]
    have hnilf : (d0 :: ds0).filter (keepB cfg (((d0 :: ds0).reverse).foldl
        (fun m d => dictInsert m (tokOf cfg d) d.original_value) [])) = [] := by
      rw [List.filter_eq_nil_iff]
      intro d hd hkeep
      obtain ⟨v, hv⟩ := buildMap_fold_covers cfg ((d0 :: ds0).reverse) [] d
        (Or.inl (List.mem_reverse.mpr hd))
      have hfa := List.all_eq_true.mp hkeep (tokOf cfg d, v) hv
      simp at hfa
    rw [hnilf]
    simp [render]

/-- Evaluation witness for C1 at a concrete anonymizer instance and input:
all hypotheses hold and the round-trip recovers the input exactly. -/
theorem c1_anonymize_roundtrip_witness :
    HexDigest c1cfg.sha256hex ∧
    SpansOk c1text (detect_pii c1cfg c1text) ∧
    (∀ d ∈ detect_pii c1cfg c1text, ¬ OccursIn (tokOf c1cfg d) c1text) ∧
    (∀ d ∈ detect_pii c1cfg c1text, ∀ d2 ∈ detect_pii c1cfg c1text,
      ¬ OccursIn d.original_value (tokOf c1cfg d2)) ∧
    (∀ d ∈ detect_pii c1cfg c1text, ∀ d2 ∈ detect_pii c1cfg c1text,
      tokOf c1cfg d = tokOf c1cfg d2 → d.original_value = d2.original_value) ∧
    deanonymize (anonymize c1cfg c1text).anonymized_text
      (anonymize c1cfg c1text).mapping = c1text := by
  have hhex : HexDigest c1cfg.sha256hex :=
    fun s => (by decide : ∀ c ∈ ("abcd1234".toList : Text), isHexChar c = true)
  have h2 : SpansOk c1text (detect_pii c1cfg c1text) := by
    rw [c1detect]
    decide
  have h3 : ∀ d ∈ detect_pii c1cfg c1text, ¬ OccursIn (tokOf c1cfg d) c1text := by
    rw [c1detect]
    decide
  have h4 : ∀ d ∈ detect_pii c1cfg c1text, ∀ d2 ∈ detect_pii c1cfg c1text,
      ¬ OccursIn d.original_value (tokOf c1cfg d2) := by
    rw [c1detect]
    decide
  have h5 : ∀ d ∈ detect_pii c1cfg c1text, ∀ d2 ∈ detect_pii c1cfg c1text,
      tokOf c1cfg d = tokOf c1cfg d2 → d.original_value = d2.original_value := by
    rw [c1detect]
    decide
  exact ⟨hhex, h2, h3, h4, h5,
    c1_anonymize_roundtrip c1cfg c1text hhex h2 h3 h4 h5⟩

end Identia
